import Mathlib

/-!
Verification of the `@baadal-sdk/dapi` wrapper library (DynamoDB / S3 helpers).

The development is a shallow embedding of `src/aws/db.ts` and `src/aws/s3.ts`:

* Items (`StringIndexable`) are modelled as association lists of string fields.
* The process-wide client holders (`dbClient` / `s3Client` from `src/aws/client.ts`)
  live in a `World` record together with the `AWS_REGION` environment value, the
  `short.uuid()` generator counter, and a trace of every backend request dispatched.
* Backend sends are resolved by oracle functions of the dispatch position
  (`trace.length` at the moment of the send): an ack-style send either succeeds
  (`none`) or throws an error with the given name (`some name`); batch reads and
  head requests have richer outcome types.
* Exceptions (`CustomError` thrown by `tryInit` in non-silent mode) are modelled
  with `Except CustomError`.
* External library collaborators (`short.uuid`, `path.resolve`, `mime.lookup`)
  are taken as parameters, exactly as the source treats them as opaque calls.
-/

namespace Dapi

/-- A `StringIndexable` item, modelled as an association list of string fields
(field values are modelled as strings; only presence/absence and equality of the
key field matter to the code under verification). -/
abbrev Item := List (String × String)

/-- `src/common/const.ts`: `BATCH_SIZE = 20` — (max) number of items in a batch request. -/
def BATCH_SIZE : Nat := 20

/-- `src/common/const.ts`: `CHUNK_SIZE = 10` — (max) number of parallel requests at a time. -/
def CHUNK_SIZE : Nat := 10

/-- A backend request, as recorded in the dispatch trace (one entry per
`client.send(command)` the code performs, in program order). -/
inductive Req where
  | putItemCond (table : String) (item : Item) (key : String)
  | batchWrite (table : String) (items : List Item)
  | batchDelete (table : String) (keys : List Item)
  | batchGet (table : String) (keys : List Item) (projection : Option String) (attrNames : Option Item)
  | putObjectReq (bucket key : String)
  | putFileReq (bucket filepath key : String)
  | headObjectReq (bucket key : String)
  | deleteObjectsReq (bucket : String) (keys : List String)
  deriving DecidableEq, Repr

/-- The client holder of `src/aws/client.ts` (`{ client, id }`): `client` records
the region the SDK client was constructed with (`none` = uninitialized), `id` is
the `short.uuid()` instance identifier. -/
structure ClientHandle where
  client : Option String
  id : Option String
  deriving DecidableEq, Repr

/-- Process state: `AWS_REGION` (empty string = unset), the two client holders,
the uuid-generator counter, and the backend dispatch trace. -/
structure World where
  region : String
  dbc : ClientHandle
  s3c : ClientHandle
  uuidCtr : Nat
  trace : List Req
  deriving DecidableEq, Repr

/-- `src/common/error.ts` `CustomError`: message plus error name. -/
structure CustomError where
  message : String
  name : String
  deriving DecidableEq, Repr

/-- `src/aws/db.ts`: `DynamoDBError(msg)`. -/
def DynamoDBError (msg : String) : CustomError := ⟨msg, "DynamoDBError"⟩

/-- `src/aws/s3.ts`: `AWSS3Error(msg)`. -/
def AWSS3Error (msg : String) : CustomError := ⟨msg, "AWSS3Error"⟩

/-- Append one dispatched request to the trace. -/
def addReq (w : World) (r : Req) : World := { w with trace := w.trace ++ [r] }

/-- Append several dispatched requests to the trace. -/
def addReqs (w : World) (rs : List Req) : World := { w with trace := w.trace ++ rs }

/-- World after a run that dispatched `rs` and consumed `du` fresh uuids. -/
def afterRun (w : World) (rs : List Req) (du : Nat) : World :=
  { w with trace := w.trace ++ rs, uuidCtr := w.uuidCtr + du }

/-!
## Chunking utility

Modelled from the spec: `chunkifyArray` is imported from `@baadal-sdk/utils`,
whose implementation is not under `src/`.  Spec §4.1 specifies splitting a
sequence into consecutive groups of at most `size` elements, and the older
inlined source loop (`src/unnamed/part_005`) pushes `items.slice(i, i + size)`
for `i = 0, size, 2·size, …` — i.e. `take n` then recurse on `drop n`.  For
`n = 0` (where the source loop would not terminate; the spec restricts to
positive sizes) we return `[]`.
-/

def chunkifyArray : List α → Nat → List (List α)
  | [], _ => []
  | _ :: _, 0 => []
  | x :: xs, n + 1 => (x :: xs).take (n + 1) :: chunkifyArray ((x :: xs).drop (n + 1)) (n + 1)
  termination_by l _ => l.length
  decreasing_by
    simp only [List.length_drop, List.length_cons]
    omega

/-- `db.status()`. -/
def dbStatus (w : World) : Option String := w.dbc.id

/-- `s3.status()`. -/
def s3Status (w : World) : Option String := w.s3c.id

/-- The `errFlag ? null : true` aggregate of the bulk writers/deleters. -/
def aggOut (ok : Bool) : Option Bool := if ok then some true else none

/-!
## Wave dispatch

`mapWave f wave` models `wave.map(f)` followed by `Promise.all`: the async
helpers run synchronously up to (and including) their single `send` dispatch,
in list order, and the joined results are collected in the same order, so the
sequential threading of `World` is faithful.  `flagWaves` models the outer
`for` loop with its `errFlag` accumulation
(`const isSuccess = bslist.every(e => e === true); if (!isSuccess) errFlag = true`).
-/

def mapWave {β : Type} (f : α → World → Except CustomError (β × World)) :
    List α → World → Except CustomError (List β × World)
  | [], w => .ok ([], w)
  | a :: rest, w =>
    match f a w with
    | .error e => .error e
    | .ok (r, w1) =>
      match mapWave f rest w1 with
      | .error e => .error e
      | .ok (rs, w2) => .ok (r :: rs, w2)

def flagWaves (runW : α → World → Except CustomError (List (Option Bool) × World)) :
    List α → Bool → World → Except CustomError (Bool × World)
  | [], errFlag, w => .ok (errFlag, w)
  | wv :: rest, errFlag, w =>
    match runW wv w with
    | .error e => .error e
    | .ok (rs, w1) =>
      flagWaves runW rest (errFlag || !(rs.all (fun r => r == some true))) w1

/-- Tabulated per-element results of a wave whose first dispatch happens at
trace position `t` (each element consumes exactly one dispatch position). -/
def resList {β : Type} (res : α → Nat → β) : List α → Nat → List β
  | [], _ => []
  | a :: rest, t => res a t :: resList res rest (t + 1)

/-- `every wave's every batch returned `true``, with dispatch positions threaded
through the waves. -/
def wavesAllOk (res : α → Nat → Option Bool) : List (List α) → Nat → Bool
  | [], _ => true
  | wv :: rest, t =>
    ((resList res wv t).all (fun r => r == some true)) && wavesAllOk res rest (t + wv.length)

/-!
## Batched reads (`batchReadItems`, `readItemsAll`)

`oGet t` is the outcome of the batch-get send dispatched at trace position `t`:
either the send throws, or it resolves with `results.Responses[table]`
(`none` when `Responses` has no entry for the table).
-/

/-- Outcome of a `BatchGetCommand` send. -/
inductive GetOut where
  | err (name : String)
  | resp (items : Option (List Item))
  deriving DecidableEq, Repr

/-- JavaScript `Array.prototype.flat()` on a mixed list whose elements are
either `null` or arrays: `null` entries are kept as elements, arrays are
spliced in. -/
def jsFlat {γ : Type} : List (Option (List γ)) → List (Option γ)
  | [] => []
  | none :: rest => none :: jsFlat rest
  | some l :: rest => l.map some ++ jsFlat rest

/-- The wave loop of `readItemsAll` (lines 443–461 of `db.ts`), carrying the
`contents`/`errFlag` accumulators. -/
def readWaves (f : List Item → World → Except CustomError (Option (List Item) × World)) :
    List (List (List Item)) → Option (List (Option Item)) → Bool → World →
      Except CustomError (Option (List (Option Item)) × World)
  | [], contents, _, w => .ok (contents, w)
  | wv :: rest, contents, errFlag, w =>
    match mapWave f wv w with
    | .error e => .error e
    | .ok (bslist, w1) =>
      if ((jsFlat bslist).find? (fun e => e.isNone)) == some none then
        readWaves f rest none true w1
      else if !errFlag then
        readWaves f rest (some (match contents with
          | some c => c ++ jsFlat bslist
          | none => jsFlat bslist)) errFlag w1
      else readWaves f rest contents errFlag w1

/-- Pure replica of the `contents`/`errFlag` fold of `readItemsAll`, acting on
the list of per-wave batch-result lists. -/
def jsAgg : Option (List (Option Item)) → Bool → List (List (Option (List Item))) →
    Option (List (Option Item))
  | contents, _, [] => contents
  | contents, errFlag, bs :: rest =>
    if ((jsFlat bs).find? (fun e => e.isNone)) == some none then jsAgg none true rest
    else if !errFlag then
      jsAgg (some (match contents with
        | some c => c ++ jsFlat bs
        | none => jsFlat bs)) errFlag rest
    else jsAgg contents errFlag rest

/-!
## Object store: `putObject`, head requests, uploads

`oHead t` is the outcome of the `HeadObjectCommand` send at trace position `t`.
`resolve` models `path.resolve(process.cwd(), ·)` and `mimeLookup` models
`mime.lookup(·)` — both external library collaborators.
-/

/-- The metadata fields `getObjectHead` copies out of a successful
`HeadObjectCommand` response. -/
structure HeadData where
  ContentLength : Option Nat
  ContentType : Option String
  ETag : Option String
  deriving DecidableEq, Repr

/-- The `HeadObject` record built by `getObjectHead`
(`{ Key: s3path, …response fields }`). -/
structure HeadObject where
  Key : String
  data : HeadData
  deriving DecidableEq, Repr

/-- Outcome of a `HeadObjectCommand` send. -/
inductive HeadOut where
  | err (name : String)
  | resp (d : HeadData)
  deriving DecidableEq, Repr

/-- The chunk loop of `getObjectHeadsAll` (lines 372–382 of `s3.ts`):
no `errFlag` — each chunk's results are appended to `contents`. -/
def headLoop (f : String → World → Except CustomError (Option HeadObject × World)) :
    List (List String) → Option (List (Option HeadObject)) → World →
      Except CustomError (Option (List (Option HeadObject)) × World)
  | [], contents, w => .ok (contents, w)
  | ck :: cks, contents, w =>
    match mapWave f ck w with
    | .error e => .error e
    | .ok (rList, w1) =>
      headLoop f cks (some (match contents with
        | some c => c ++ rList
        | none => rList)) w1

/-- `path.basename` for slash-separated paths: the last non-empty component. -/
def baseName (p : String) : String :=
  ((p.splitOn "/").filter (fun s => s ≠ "")).getLastD ""

/-- `basename.substr(basename.lastIndexOf('.'))`: from the last dot (inclusive)
to the end; with no dot, `lastIndexOf` is `-1` and `substr(-1)` yields the last
character. -/
def extOf (b : String) : String :=
  match b.toList.reverse.findIdx? (fun c => c == '.') with
  | some k => String.mk (b.toList.drop (b.length - 1 - k))
  | none => String.mk (b.toList.drop (b.length - 1))

/-!
## Key-value store: single writes with forced unique keys
-/

/-- `item[key]` as the code reads it (`undefined` when absent). -/
def itemGet (it : Item) (k : String) : Option String :=
  (it.find? (fun p => p.1 == k)).map (fun p => p.2)

/-- `item[key] = v`: overwrite in place, or append the new field. -/
def itemSet (it : Item) (k v : String) : Item :=
  if (it.find? (fun p => p.1 == k)).isSome then
    it.map (fun p => if p.1 == k then (p.1, v) else p)
  else it ++ [(k, v)]

/-- JavaScript falsiness of a possibly-absent string field
(`undefined`, or the empty string). -/
def jsFalsy (v : Option String) : Bool := v == none || v == some ""

/-- `input.key || 'id'`. -/
def effKey (k : Option String) : String :=
  match k with
  | some s => if s = "" then "id" else s
  | none => "id"

/-- How many uuids the initial key-assignment step consumes. -/
def attemptBump (item : Item) (key : String) : Nat :=
  if jsFalsy (itemGet item key) then 1 else 0

section Model

variable (uuid : Nat → String)
variable (oSend : Nat → Option String)
variable (oGet : Nat → GetOut)
variable (oHead : Nat → HeadOut)
variable (resolve : String → String) (mimeLookup : String → Option String)

/-!
## Client lifecycle (`src/aws/db.ts`, `src/aws/s3.ts` lines 41–71)

`uuid` models `short.uuid()`: successive calls return `uuid 0, uuid 1, …`
(the counter lives in the `World`).
-/

/-- `db.init(region)`: construct the document client and a fresh instance id if
the holder is empty (returns `true`), otherwise do nothing (returns `false`). -/
def dbInit (region : String) (w : World) : Bool × World :=
  if w.dbc.client = none then
    (true, { w with dbc := { client := some region, id := some (uuid w.uuidCtr) },
                    uuidCtr := w.uuidCtr + 1 })
  else (false, w)

/-- `db.tryInit(silent)`: no-op when a client exists; otherwise attempt `init`
from `process.env.AWS_REGION || ''`; if that is not possible, throw a
`DynamoDBError` unless `silent`. -/
def dbTryInit (silent : Bool) (w : World) : Except CustomError World :=
  if w.dbc.client ≠ none then Except.ok w
  else if w.region ≠ "" then
    let r := dbInit uuid w.region w
    if r.1 then Except.ok r.2
    else if silent then Except.ok r.2
    else Except.error (DynamoDBError "Could not auto-initialize DynamoDB!")
  else if silent then Except.ok w
  else Except.error (DynamoDBError "Could not auto-initialize DynamoDB!")

/-- The common first step of every public db operation:
`if (!dbClient.client) tryInit();` — note the non-silent default. -/
def dbEnsure (w : World) : Except CustomError World :=
  if w.dbc.client = none then dbTryInit uuid false w else Except.ok w

/-- `s3.init(region)`. -/
def s3Init (region : String) (w : World) : Bool × World :=
  if w.s3c.client = none then
    (true, { w with s3c := { client := some region, id := some (uuid w.uuidCtr) },
                    uuidCtr := w.uuidCtr + 1 })
  else (false, w)

/-- `s3.tryInit(silent)`. -/
def s3TryInit (silent : Bool) (w : World) : Except CustomError World :=
  if w.s3c.client ≠ none then Except.ok w
  else if w.region ≠ "" then
    let r := s3Init uuid w.region w
    if r.1 then Except.ok r.2
    else if silent then Except.ok r.2
    else Except.error (AWSS3Error "Could not auto-initialize AWS S3!")
  else if silent then Except.ok w
  else Except.error (AWSS3Error "Could not auto-initialize AWS S3!")

/-- `if (!s3Client.client) tryInit();` step of every public s3 operation. -/
def s3Ensure (w : World) : Except CustomError World :=
  if w.s3c.client = none then s3TryInit uuid false w else Except.ok w

/-!
## Backend send oracle

`oSend t` is the outcome of the `t`-th dispatched request (counting every
`client.send` in program order, i.e. at trace position `t`) for ack-style
commands: `none` = the send resolves normally, `some name` = the send throws
an error whose `name` property is the given string.
-/

/-- Result of an ack-style batch helper at dispatch position `t`:
`true` on success, `null` when the (caught) send threw. -/
def sendRes (t : Nat) : Option Bool :=
  match oSend t with
  | none => some true
  | some _ => none

/-- All of the `n` sends dispatched at positions `t, t+1, …, t+n-1` succeed. -/
def sendOkRange (t n : Nat) : Bool :=
  (List.range n).all (fun j => (oSend (t + j)).isNone)

/-!
## Batch helpers (`batchWriteItems`, `batchDeleteItems`, `batchDeleteObjects`)
-/

/-- `db.ts` `batchWriteItems(table, items)`. -/
def batchWriteItems (table : String) (items : List Item) (w : World) :
    Except CustomError (Option Bool × World) :=
  match dbEnsure uuid w with
  | .error e => .error e
  | .ok w1 =>
    if w1.dbc.client = none then .ok (none, w1)
    else if table = "" ∨ items = [] then .ok (none, w1)
    else
      let w2 := addReq w1 (Req.batchWrite table items)
      match oSend w1.trace.length with
      | none => .ok (some true, w2)
      | some _ => .ok (none, w2)

/-- `db.ts` `batchDeleteItems(table, keys)`. -/
def batchDeleteItems (table : String) (keys : List Item) (w : World) :
    Except CustomError (Option Bool × World) :=
  match dbEnsure uuid w with
  | .error e => .error e
  | .ok w1 =>
    if w1.dbc.client = none then .ok (none, w1)
    else if table = "" ∨ keys = [] then .ok (none, w1)
    else
      let w2 := addReq w1 (Req.batchDelete table keys)
      match oSend w1.trace.length with
      | none => .ok (some true, w2)
      | some _ => .ok (none, w2)

/-- `s3.ts` `batchDeleteObjects(bucket, s3paths)`. -/
def batchDeleteObjects (bucket : String) (s3paths : List String) (w : World) :
    Except CustomError (Option Bool × World) :=
  match s3Ensure uuid w with
  | .error e => .error e
  | .ok w1 =>
    if w1.s3c.client = none then .ok (none, w1)
    else if bucket = "" ∨ s3paths = [] then .ok (none, w1)
    else
      let w2 := addReq w1 (Req.deleteObjectsReq bucket s3paths)
      match oSend w1.trace.length with
      | none => .ok (some true, w2)
      | some _ => .ok (none, w2)

/-!
## Bulk mutation pipelines
-/

/-- `db.ts` `writeItemsAll({ table, items })`. -/
def writeItemsAll (table : String) (items : List Item) (w : World) :
    Except CustomError (Option Bool × World) :=
  match dbEnsure uuid w with
  | .error e => .error e
  | .ok w1 =>
    if w1.dbc.client = none then .ok (none, w1)
    else if table = "" ∨ items = [] then .ok (none, w1)
    else
      match flagWaves (fun wv => mapWave (batchWriteItems uuid oSend table) wv)
          (chunkifyArray (chunkifyArray items BATCH_SIZE) CHUNK_SIZE) false w1 with
      | .error e => .error e
      | .ok (errFlag, w2) => .ok (if errFlag then none else some true, w2)

/-- `db.ts` `deleteItemsAll({ table, keys })`. -/
def deleteItemsAll (table : String) (keys : List Item) (w : World) :
    Except CustomError (Option Bool × World) :=
  match dbEnsure uuid w with
  | .error e => .error e
  | .ok w1 =>
    if w1.dbc.client = none then .ok (none, w1)
    else if table = "" ∨ keys = [] then .ok (none, w1)
    else
      match flagWaves (fun wv => mapWave (batchDeleteItems uuid oSend table) wv)
          (chunkifyArray (chunkifyArray keys BATCH_SIZE) CHUNK_SIZE) false w1 with
      | .error e => .error e
      | .ok (errFlag, w2) => .ok (if errFlag then none else some true, w2)

/-- `s3.ts` `deleteObjectsAll(bucket, s3paths)`. -/
def deleteObjectsAll (bucket : String) (s3paths : List String) (w : World) :
    Except CustomError (Option Bool × World) :=
  match s3Ensure uuid w with
  | .error e => .error e
  | .ok w1 =>
    if w1.s3c.client = none then .ok (none, w1)
    else if bucket = "" ∨ s3paths = [] then .ok (none, w1)
    else
      match flagWaves (fun wv => mapWave (batchDeleteObjects uuid oSend bucket) wv)
          (chunkifyArray (chunkifyArray s3paths BATCH_SIZE) CHUNK_SIZE) false w1 with
      | .error e => .error e
      | .ok (errFlag, w2) => .ok (if errFlag then none else some true, w2)

/-- `db.ts` `batchReadItems(table, keys, projection?, attrNames?)`. -/
def batchReadItems (table : String) (keys : List Item)
    (projection : Option String) (attrNames : Option Item) (w : World) :
    Except CustomError (Option (List Item) × World) :=
  match dbEnsure uuid w with
  | .error e => .error e
  | .ok w1 =>
    if w1.dbc.client = none then .ok (none, w1)
    else if table = "" ∨ keys = [] then .ok (none, w1)
    else
      let w2 := addReq w1 (Req.batchGet table keys projection attrNames)
      match oGet w1.trace.length with
      | .err _ => .ok (none, w2)
      | .resp none => .ok (none, w2)
      | .resp (some l) => .ok (some l, w2)

/-- `db.ts` `readItemsAll({ table, keys, projection?, attrNames? })`. -/
def readItemsAll (table : String) (keys : List Item)
    (projection : Option String) (attrNames : Option Item) (w : World) :
    Except CustomError (Option (List (Option Item)) × World) :=
  match dbEnsure uuid w with
  | .error e => .error e
  | .ok w1 =>
    if w1.dbc.client = none then .ok (none, w1)
    else if table = "" ∨ keys = [] then .ok (none, w1)
    else
      readWaves (fun ks => batchReadItems uuid oGet table ks projection attrNames)
        (chunkifyArray (chunkifyArray keys BATCH_SIZE) CHUNK_SIZE) none false w1

/-- Per-batch result of the batch-get dispatched at position `t`
(`null` both for a thrown send and for a missing `Responses[table]`). -/
def batchGetRes (t : Nat) : Option (List Item) :=
  match oGet t with
  | .err _ => none
  | .resp none => none
  | .resp (some l) => some l

/-- The `n` per-batch results for consecutive dispatch positions starting at `t`. -/
def readResFrom (t n : Nat) : List (Option (List Item)) :=
  (List.range n).map (fun j => batchGetRes oGet (t + j))

/-- Closed form of the `readItemsAll` aggregate: `null` as soon as any batch
yielded `null`, otherwise the wave/batch-order concatenation (`jsFlat`) of the
per-batch result lists. -/
def readOut (t n : Nat) : Option (List (Option Item)) :=
  if none ∈ readResFrom oGet t n then none else some (jsFlat (readResFrom oGet t n))

/-- Per-wave batch results with dispatch positions threaded through the waves. -/
def wavesResFrom (t : Nat) : List (List (List Item)) → List (List (Option (List Item)))
  | [] => []
  | wv :: rest => resList (fun _ u => batchGetRes oGet u) wv t :: wavesResFrom (t + wv.length) rest

/-- `s3.ts` `putObject(bucket, s3path, contents)`. -/
def putObject (bucket s3path contents : String) (w : World) :
    Except CustomError (Option Bool × World) :=
  match s3Ensure uuid w with
  | .error e => .error e
  | .ok w1 =>
    if w1.s3c.client = none then .ok (none, w1)
    else if bucket = "" ∨ s3path = "" ∨ contents = "" then .ok (none, w1)
    else
      let w2 := addReq w1 (Req.putObjectReq bucket s3path)
      match oSend w1.trace.length with
      | none => .ok (some true, w2)
      | some _ => .ok (none, w2)

/-- `s3.ts` `getObjectHead(bucket, s3path)`: `null` on a thrown send (with the
`NotFound` error name special-cased only for logging), otherwise the head
record keyed by `s3path`. -/
def getObjectHead (bucket s3path : String) (w : World) :
    Except CustomError (Option HeadObject × World) :=
  match s3Ensure uuid w with
  | .error e => .error e
  | .ok w1 =>
    if w1.s3c.client = none then .ok (none, w1)
    else if bucket = "" ∨ s3path = "" then .ok (none, w1)
    else
      let w2 := addReq w1 (Req.headObjectReq bucket s3path)
      match oHead w1.trace.length with
      | .err _ => .ok (none, w2)
      | .resp d => .ok (some ⟨s3path, d⟩, w2)

/-- `s3.ts` `getObjectHeadsAll(bucket, s3paths)`: concatenate per-chunk head
results, then — `if (contents?.length)` — drop the `null` entries. -/
def getObjectHeadsAll (bucket : String) (s3paths : List String) (w : World) :
    Except CustomError (Option (List (Option HeadObject)) × World) :=
  match s3Ensure uuid w with
  | .error e => .error e
  | .ok w1 =>
    if w1.s3c.client = none then .ok (none, w1)
    else if bucket = "" ∨ s3paths = [] then .ok (none, w1)
    else
      match headLoop (getObjectHead uuid oHead bucket)
          (chunkifyArray s3paths CHUNK_SIZE) none w1 with
      | .error e => .error e
      | .ok (contents, w2) =>
        .ok ((match contents with
          | some l => if l.length ≠ 0 then some (l.filter (fun e => e.isSome)) else some l
          | none => none), w2)

/-- Per-path result of the head request dispatched at position `t`. -/
def headRes (t : Nat) (p : String) : Option HeadObject :=
  match oHead t with
  | .err _ => none
  | .resp d => some ⟨p, d⟩

/-- The per-path head results for consecutive dispatch positions starting at `t`. -/
def headResFrom (t : Nat) : List String → List (Option HeadObject)
  | [] => []
  | p :: ps => headRes oHead t p :: headResFrom (t + 1) ps

/-- `utils/index.ts` `assertPath(p)`: keep `''` and absolute paths, resolve the
rest against the working directory (the `path.resolve` call is the `resolve`
collaborator). -/
def assertPath (p : String) : String :=
  if p = "" ∨ p.startsWith "/" then p else resolve p

/-- `s3.ts` `uploadFile(bucket, file, s3path?)`: unknown content type aborts
with `null` before any send; an unset/empty `s3path` falls back to the `file`
argument (when `assertPath` changed it) or to the basename. -/
def uploadFile (bucket file : String) (s3path : Option String) (w : World) :
    Except CustomError (Option Bool × World) :=
  match s3Ensure uuid w with
  | .error e => .error e
  | .ok w1 =>
    if w1.s3c.client = none then .ok (none, w1)
    else if bucket = "" ∨ file = "" then .ok (none, w1)
    else
      match mimeLookup (extOf (baseName (assertPath resolve file))) with
      | none => .ok (none, w1)
      | some _ =>
        let filepath := assertPath resolve file
        let key := match s3path with
          | some p =>
            if p = "" then (if file ≠ filepath then file else baseName filepath) else p
          | none => if file ≠ filepath then file else baseName filepath
        let w2 := addReq w1 (Req.putFileReq bucket filepath key)
        match oSend w1.trace.length with
        | none => .ok (some true, w2)
        | some _ => .ok (none, w2)

/-- One chunk of `uploadFilesAll`:
`filesChunk.map((item, j) => uploadFile(bucket, item, pathsChunk[j]))` with
`Promise.all` — the `j`-th file is paired with the `j`-th path
(`undefined`, i.e. `none`, past the end of `pathsChunk`). -/
def uploadWave (bucket : String) :
    List String → List String → World → Except CustomError (List (Option Bool) × World)
  | [], _, w => .ok ([], w)
  | f :: fs, ps, w =>
    match uploadFile uuid oSend resolve mimeLookup bucket f ps.head? w with
    | .error e => .error e
    | .ok (r, w1) =>
      match uploadWave bucket fs ps.tail w1 with
      | .error e => .error e
      | .ok (rs, w2) => .ok (r :: rs, w2)

/-- The chunk loop of `uploadFilesAll` with its `errFlag`. -/
def uploadLoop (bucket : String) :
    List (List String) → List (List String) → Bool → World →
      Except CustomError (Bool × World)
  | [], _, errFlag, w => .ok (errFlag, w)
  | fc :: fcs, cps, errFlag, w =>
    match uploadWave uuid oSend resolve mimeLookup bucket fc (cps.headD []) w with
    | .error e => .error e
    | .ok (rs, w1) =>
      uploadLoop bucket fcs cps.tail (errFlag || !(rs.all (fun r => r == some true))) w1

/-- `s3.ts` `uploadFilesAll(bucket, files, s3paths?)`: with no `s3paths` the
chunked paths ARE the chunked files (`const chunkedPaths = s3paths ? … : chunkedFiles`). -/
def uploadFilesAll (bucket : String) (files : List String) (s3paths : Option (List String))
    (w : World) : Except CustomError (Option Bool × World) :=
  match s3Ensure uuid w with
  | .error e => .error e
  | .ok w1 =>
    if w1.s3c.client = none then .ok (none, w1)
    else if bucket = "" ∨ files = [] then .ok (none, w1)
    else
      let run := fun (cf cp : List (List String)) =>
        match uploadLoop uuid oSend resolve mimeLookup bucket cf cp false w1 with
        | .error e => .error e
        | .ok (errFlag, w2) => .ok (if errFlag then none else some true, w2)
      match s3paths with
      | some ps =>
        if ps = [] ∨ files.length ≠ ps.length then .ok (none, w1)
        else run (chunkifyArray files CHUNK_SIZE) (chunkifyArray ps CHUNK_SIZE)
      | none => run (chunkifyArray files CHUNK_SIZE) (chunkifyArray files CHUNK_SIZE)

/-- The request `uploadFile(bucket, f, f)` dispatches (`none` when it aborts
before the send): the S3 key is the file string `f` itself. -/
def uploadReqOf (bucket f : String) : Option Req :=
  if f = "" then none
  else match mimeLookup (extOf (baseName (assertPath resolve f))) with
    | none => none
    | some _ => some (Req.putFileReq bucket (assertPath resolve f) f)

/-- `db.ts` `writeItemForceHelper(table, item, key, i)` with
`numberOfAttempts = 3`.  The second component of the result is the item object
as the caller sees it after the call — the in-place key mutations persist even
when the result is `null`. -/
def writeItemForceHelper (table : String) (item : Item) (key : String) (i : Nat) (w : World) :
    Except CustomError (Option Item × Item × World) :=
  match dbEnsure uuid w with
  | .error e => .error e
  | .ok w1 =>
    if w1.dbc.client = none then .ok (none, item, w1)
    else if table = "" then .ok (none, item, w1)
    else
      let step :=
        if jsFalsy (itemGet item key) then
          (itemSet item key (uuid w1.uuidCtr), { w1 with uuidCtr := w1.uuidCtr + 1 })
        else (item, w1)
      let item1 := step.1
      let w2 := step.2
      let w3 := addReq w2 (Req.putItemCond table item1 key)
      match oSend w2.trace.length with
      | none => .ok (some item1, item1, w3)
      | some nm =>
        if nm = "ConditionalCheckFailedException" then
          if h : i < 3 - 1 then
            writeItemForceHelper table (itemSet item1 key (uuid w3.uuidCtr)) key (i + 1)
              { w3 with uuidCtr := w3.uuidCtr + 1 }
          else .ok (none, item1, w3)
        else .ok (none, item1, w3)
  termination_by 3 - i
  decreasing_by omega

/-- `db.ts` `writeItemForce({ table, item, key? })`. -/
def writeItemForce (table : String) (item : Item) (key : Option String) (w : World) :
    Except CustomError (Option Item × Item × World) :=
  writeItemForceHelper uuid oSend table item (effKey key) 0 w

/-- The item after the initial `if (!item[key]) item[key] = short.uuid()`
step, given the uuid counter `u`. -/
def attemptItem (item : Item) (key : String) (u : Nat) : Item :=
  if jsFalsy (itemGet item key) then itemSet item key (uuid u) else item

end Model

/-!
## Concrete sample inputs for the witnesses
-/

/-- Sample uuid generator. -/
def uuidS : Nat → String := fun n => "uuid-" ++ toString n

/-- Send oracle where every backend send succeeds. -/
def osOK : Nat → Option String := fun _ => none

/-- Send oracle where every backend send throws a generic error. -/
def osErr : Nat → Option String := fun _ => some "InternalError"

/-- Send oracle where every conditional put reports a key conflict. -/
def osConflict : Nat → Option String := fun _ => some "ConditionalCheckFailedException"

/-- A sample item. -/
def it1 : Item := [("id", "id-1")]

/-- A sample item with no `id` field. -/
def itT : Item := [("title", "x")]

/-- Send oracle: key conflict on the first send, success afterwards. -/
def osCS : Nat → Option String :=
  fun n => if n = 0 then some "ConditionalCheckFailedException" else none

/-- Sample head metadata. -/
def hd1 : HeadData := { ContentLength := some 3, ContentType := some "text/plain",
                        ETag := some "W-xyz" }

/-- Head oracle where every head request succeeds with `hd1`. -/
def ohOK : Nat → HeadOut := fun _ => HeadOut.resp hd1

/-- Head oracle where every head request throws. -/
def ohErr : Nat → HeadOut := fun _ => HeadOut.err "InternalError"

/-- Sample `path.resolve(process.cwd(), ·)`. -/
def resolveS : String → String := fun p => "/cwd/" ++ p

/-- Sample `mime.lookup`: only `.txt` is known. -/
def mimeS : String → Option String := fun e => if e = ".txt" then some "text/plain" else none

/-- Batch-get oracle where every batch read resolves with one item. -/
def ogS : Nat → GetOut := fun _ => GetOut.resp (some [it1])

/-- A world whose db and s3 clients are both initialized. -/
def wInit : World :=
  { region := "", dbc := { client := some "us-east-1", id := some "db-0" },
    s3c := { client := some "us-east-1", id := some "s3-0" }, uuidCtr := 0, trace := [] }

/-- A world with no clients and no `AWS_REGION` in the environment. -/
def wEmpty : World :=
  { region := "", dbc := { client := none, id := none },
    s3c := { client := none, id := none }, uuidCtr := 0, trace := [] }

section Model

variable (uuid : Nat → String)
variable (oSend : Nat → Option String)
variable (oGet : Nat → GetOut)
variable (oHead : Nat → HeadOut)
variable (resolve : String → String) (mimeLookup : String → Option String)

@[simp] theorem addReq_trace (w : World) (r : Req) : (addReq w r).trace = w.trace ++ [r] := rfl

@[simp] theorem addReq_dbc (w : World) (r : Req) : (addReq w r).dbc = w.dbc := rfl

@[simp] theorem addReq_s3c (w : World) (r : Req) : (addReq w r).s3c = w.s3c := rfl

@[simp] theorem addReq_region (w : World) (r : Req) : (addReq w r).region = w.region := rfl

@[simp] theorem addReq_uuidCtr (w : World) (r : Req) : (addReq w r).uuidCtr = w.uuidCtr := rfl

@[simp] theorem addReqs_trace (w : World) (rs : List Req) :
    (addReqs w rs).trace = w.trace ++ rs := rfl

@[simp] theorem addReqs_dbc (w : World) (rs : List Req) : (addReqs w rs).dbc = w.dbc := rfl

@[simp] theorem addReqs_s3c (w : World) (rs : List Req) : (addReqs w rs).s3c = w.s3c := rfl

@[simp] theorem addReqs_nil (w : World) : addReqs w [] = w := by
  simp [addReqs]

theorem addReq_addReqs (w : World) (r : Req) (rs : List Req) :
    addReqs (addReq w r) rs = addReqs w (r :: rs) := by
  simp [addReqs, addReq]

@[simp] theorem chunkifyArray_nil (n : Nat) : chunkifyArray ([] : List α) n = [] := by
  cases n <;> rw [chunkifyArray]

theorem chunkifyArray_ne (xs : List α) (n : Nat) (hx : xs ≠ []) (hn : 0 < n) :
    chunkifyArray xs n = xs.take n :: chunkifyArray (xs.drop n) n := by
  cases xs with
  | nil => exact absurd rfl hx
  | cons x xs =>
    cases n with
    | zero => exact absurd hn (by omega)
    | succ n => rw [chunkifyArray]

theorem chunkifyArray_eq_nil_iff (xs : List α) (n : Nat) (hn : 0 < n) :
    chunkifyArray xs n = [] ↔ xs = [] := by
  cases xs with
  | nil => simp
  | cons x xs =>
    rw [chunkifyArray_ne _ _ (by simp) hn]
    simp

/-- Concatenating the chunks in order reproduces the input sequence. -/
theorem chunkifyArray_flatten (xs : List α) (n : Nat) (hn : 0 < n) :
    (chunkifyArray xs n).flatten = xs := by
  induction xs, n using chunkifyArray.induct with
  | case1 n => simp
  | case2 x xs => exact absurd hn (by omega)
  | case3 x xs n ih =>
    rw [chunkifyArray]
    simp only [List.flatten_cons, ih (by omega)]
    exact List.take_append_drop _ _

/-- Every chunk has length at most `n`. -/
theorem chunkifyArray_length_le (xs : List α) (n : Nat) (c : List α)
    (hc : c ∈ chunkifyArray xs n) : c.length ≤ n := by
  induction xs, n using chunkifyArray.induct with
  | case1 n => simp at hc
  | case2 x xs => simp [chunkifyArray.eq_2] at hc
  | case3 x xs n ih =>
    rw [chunkifyArray.eq_3] at hc
    rcases List.mem_cons.mp hc with hc | hc
    · subst hc
      simp
    · exact ih hc

/-- No chunk of a run of `chunkifyArray` is empty (positive size). -/
theorem chunkifyArray_ne_nil (xs : List α) (n : Nat) (c : List α)
    (hc : c ∈ chunkifyArray xs n) : c ≠ [] := by
  induction xs, n using chunkifyArray.induct with
  | case1 n => simp at hc
  | case2 x xs => simp [chunkifyArray.eq_2] at hc
  | case3 x xs n ih =>
    rw [chunkifyArray.eq_3] at hc
    rcases List.mem_cons.mp hc with hc | hc
    · subst hc
      simp
    · exact ih hc

/-- Every chunk except possibly the last has length exactly `n`. -/
theorem chunkifyArray_length_eq (xs : List α) (n : Nat) (hn : 0 < n) (i : Nat)
    (hi : i + 1 < (chunkifyArray xs n).length) :
    ((chunkifyArray xs n).getD i []).length = n := by
  induction xs, n using chunkifyArray.induct generalizing i with
  | case1 n => simp at hi
  | case2 x xs => exact absurd hn (by omega)
  | case3 x xs n ih =>
    rw [chunkifyArray] at hi ⊢
    cases i with
    | zero =>
      simp only [List.length_cons] at hi
      have hrest : chunkifyArray ((x :: xs).drop (n + 1)) (n + 1) ≠ [] := by
        intro h
        rw [h] at hi
        simp at hi
      have hdrop : (x :: xs).drop (n + 1) ≠ [] := by
        intro h
        rw [h] at hrest
        simp at hrest
      have hlen : n + 1 ≤ (x :: xs).length := by
        by_contra h
        push_neg at h
        exact hdrop (List.drop_eq_nil_of_le (by omega))
      simp only [List.length_cons] at hlen
      simp only [List.getD_cons_zero, List.length_take, List.length_cons]
      omega
    | succ j =>
      simp only [List.length_cons] at hi
      simpa using ih (by omega) j (by omega)

theorem dbEnsure_of_isSome (w : World) (h : w.dbc.client.isSome) :
    dbEnsure uuid w = Except.ok w := by
  rw [dbEnsure, if_neg]
  simp [Option.isSome_iff_exists] at h
  rcases h with ⟨r, hr⟩
  simp [hr]

theorem s3Ensure_of_isSome (w : World) (h : w.s3c.client.isSome) :
    s3Ensure uuid w = Except.ok w := by
  rw [s3Ensure, if_neg]
  simp [Option.isSome_iff_exists] at h
  rcases h with ⟨r, hr⟩
  simp [hr]

theorem dbEnsure_ok (w : World) (h : w.dbc.client.isSome ∨ w.region ≠ "") :
    ∃ w', dbEnsure uuid w = Except.ok w' ∧ w'.trace = w.trace ∧ w'.dbc.client.isSome ∧
      w'.region = w.region ∧ w'.s3c = w.s3c := by
  by_cases hc : w.dbc.client.isSome
  · exact ⟨w, dbEnsure_of_isSome uuid w hc, rfl, hc, rfl, rfl⟩
  · have hr : w.region ≠ "" := h.resolve_left hc
    have hcn : w.dbc.client = none := by
      cases hcc : w.dbc.client with
      | none => rfl
      | some r => exact absurd (by simp [hcc]) hc
    have hres : dbEnsure uuid w = Except.ok
        { w with dbc := { client := some w.region, id := some (uuid w.uuidCtr) },
                 uuidCtr := w.uuidCtr + 1 } := by
      simp [dbEnsure, dbTryInit, dbInit, hcn, hr]
    exact ⟨_, hres, rfl, by simp, rfl, rfl⟩

theorem s3Ensure_ok (w : World) (h : w.s3c.client.isSome ∨ w.region ≠ "") :
    ∃ w', s3Ensure uuid w = Except.ok w' ∧ w'.trace = w.trace ∧ w'.s3c.client.isSome ∧
      w'.region = w.region ∧ w'.dbc = w.dbc := by
  by_cases hc : w.s3c.client.isSome
  · exact ⟨w, s3Ensure_of_isSome uuid w hc, rfl, hc, rfl, rfl⟩
  · have hr : w.region ≠ "" := h.resolve_left hc
    have hcn : w.s3c.client = none := by
      cases hcc : w.s3c.client with
      | none => rfl
      | some r => exact absurd (by simp [hcc]) hc
    have hres : s3Ensure uuid w = Except.ok
        { w with s3c := { client := some w.region, id := some (uuid w.uuidCtr) },
                 uuidCtr := w.uuidCtr + 1 } := by
      simp [s3Ensure, s3TryInit, s3Init, hcn, hr]
    exact ⟨_, hres, rfl, by simp, rfl, rfl⟩

theorem dbEnsure_uninit (w : World) (hc : w.dbc.client = none) (hr : w.region = "") :
    dbEnsure uuid w = Except.error (DynamoDBError "Could not auto-initialize DynamoDB!") := by
  simp [dbEnsure, dbTryInit, hc, hr]

theorem s3Ensure_uninit (w : World) (hc : w.s3c.client = none) (hr : w.region = "") :
    s3Ensure uuid w = Except.error (AWSS3Error "Could not auto-initialize AWS S3!") := by
  simp [s3Ensure, s3TryInit, hc, hr]

theorem sendRes_eq_ok (t : Nat) : (sendRes oSend t == some true) = (oSend t).isNone := by
  cases h : oSend t <;> simp [sendRes, h]

theorem sendOkRange_add (t m n : Nat) :
    sendOkRange oSend t (m + n) = (sendOkRange oSend t m && sendOkRange oSend (t + m) n) := by
  simp [sendOkRange, List.range_add, List.all_map, Function.comp_def, Nat.add_assoc]

theorem sendOkRange_succ (t n : Nat) :
    sendOkRange oSend t (n + 1) = ((oSend t).isNone && sendOkRange oSend (t + 1) n) := by
  have h := sendOkRange_add oSend t 1 n
  rw [Nat.add_comm 1 n] at h
  rw [h]
  congr 1
  have h1 : List.range 1 = [0] := rfl
  simp [sendOkRange, h1]

theorem sendOkRange_iff (t n : Nat) :
    sendOkRange oSend t n = true ↔ ∀ j < n, oSend (t + j) = none := by
  simp [sendOkRange, List.all_eq_true, Option.isNone_iff_eq_none, List.mem_range]

@[simp] theorem addReq_trace_length (w : World) (r : Req) :
    (addReq w r).trace.length = w.trace.length + 1 := by
  simp [addReq]

@[simp] theorem addReqs_trace_length (w : World) (rs : List Req) :
    (addReqs w rs).trace.length = w.trace.length + rs.length := by
  simp [addReqs]

theorem addReq_eq_addReqs (w : World) (r : Req) : addReq w r = addReqs w [r] := rfl

theorem addReqs_addReqs (w : World) (rs rs' : List Req) :
    addReqs (addReqs w rs) rs' = addReqs w (rs ++ rs') := by
  simp [addReqs]

theorem bool_or_not_and (e a b : Bool) : ((e || !a) || !b) = (e || !(a && b)) := by
  cases e <;> cases a <;> cases b <;> rfl

theorem mapWave_ok {β : Type} (f : α → World → Except CustomError (β × World))
    (req : α → Req) (res : α → Nat → β) (Inv : World → Prop)
    (hInv : ∀ w rs, Inv w → Inv (addReqs w rs))
    (l : List α)
    (hstep : ∀ a ∈ l, ∀ w, Inv w → f a w = .ok (res a w.trace.length, addReq w (req a)))
    (w : World) (hw : Inv w) :
    mapWave f l w = .ok (resList res l w.trace.length, addReqs w (l.map req)) := by
  induction l generalizing w with
  | nil => simp [mapWave, resList]
  | cons a rest ih =>
    rw [mapWave]
    simp only [hstep a (by simp) w hw,
      ih (fun b hb => hstep b (by simp [hb]))
        (addReq w (req a)) (addReq_eq_addReqs w (req a) ▸ hInv w [req a] hw)]
    simp [resList, addReq_eq_addReqs, addReqs_addReqs]

theorem flagWaves_ok (g : α → World → Except CustomError (Option Bool × World))
    (req : α → Req) (res : α → Nat → Option Bool) (Inv : World → Prop)
    (hInv : ∀ w rs, Inv w → Inv (addReqs w rs))
    (waves : List (List α))
    (hstep : ∀ wv ∈ waves, ∀ a ∈ wv, ∀ w, Inv w →
      g a w = .ok (res a w.trace.length, addReq w (req a)))
    (e : Bool) (w : World) (hw : Inv w) :
    flagWaves (fun wv => mapWave g wv) waves e w =
      .ok (e || !(wavesAllOk res waves w.trace.length),
           addReqs w ((waves.map (fun wv => wv.map req)).flatten)) := by
  induction waves generalizing e w with
  | nil => simp [flagWaves, wavesAllOk]
  | cons wv rest ih =>
    rw [flagWaves]
    simp only [mapWave_ok g req res Inv hInv wv (hstep wv (by simp)) w hw,
      ih (fun wv' h => hstep wv' (by simp [h]))
        (e || !((resList res wv w.trace.length).all (fun r => r == some true)))
        (addReqs w (wv.map req)) (hInv w _ hw)]
    simp only [addReqs_trace_length, List.length_map, List.map_cons, List.flatten_cons,
      addReqs_addReqs, wavesAllOk, bool_or_not_and]

/-- For the ack-style batch helpers the per-batch result depends only on the
dispatch position; the wave bookkeeping collapses to `sendOkRange` over the
total number of batches. -/
theorem resList_sendRes_all (l : List α) (t : Nat) :
    ((resList (fun _ u => sendRes oSend u) l t).all (fun r => r == some true)) =
      sendOkRange oSend t l.length := by
  induction l generalizing t with
  | nil => simp [resList, sendOkRange]
  | cons a rest ih =>
    rw [resList]
    simp only [List.all_cons, ih (t + 1), sendRes_eq_ok, List.length_cons]
    rw [sendOkRange_succ]

theorem wavesAllOk_sendRes (waves : List (List α)) (t : Nat) :
    wavesAllOk (fun _ u => sendRes oSend u) waves t =
      sendOkRange oSend t waves.flatten.length := by
  induction waves generalizing t with
  | nil => simp [wavesAllOk, sendOkRange]
  | cons wv rest ih =>
    rw [wavesAllOk, resList_sendRes_all, ih]
    simp only [List.flatten_cons, List.length_append]
    rw [sendOkRange_add]

theorem ifNot_aggOut (ok : Bool) :
    (if !ok then none else some true : Option Bool) = aggOut ok := by
  cases ok <;> rfl

theorem batchWriteItems_step (table : String) (ht : table ≠ "") (b : List Item) (hb : b ≠ [])
    (w : World) (hw : w.dbc.client.isSome) :
    batchWriteItems uuid oSend table b w =
      .ok (sendRes oSend w.trace.length, addReq w (Req.batchWrite table b)) := by
  have hc : ¬ w.dbc.client = none := by simpa [Option.isSome_iff_ne_none] using hw
  rw [batchWriteItems, dbEnsure_of_isSome uuid w hw]
  cases h : oSend w.trace.length <;> simp [hc, ht, hb, sendRes, h]

theorem batchDeleteItems_step (table : String) (ht : table ≠ "") (b : List Item) (hb : b ≠ [])
    (w : World) (hw : w.dbc.client.isSome) :
    batchDeleteItems uuid oSend table b w =
      .ok (sendRes oSend w.trace.length, addReq w (Req.batchDelete table b)) := by
  have hc : ¬ w.dbc.client = none := by simpa [Option.isSome_iff_ne_none] using hw
  rw [batchDeleteItems, dbEnsure_of_isSome uuid w hw]
  cases h : oSend w.trace.length <;> simp [hc, ht, hb, sendRes, h]

theorem batchDeleteObjects_step (bucket : String) (hbk : bucket ≠ "") (b : List String)
    (hb : b ≠ []) (w : World) (hw : w.s3c.client.isSome) :
    batchDeleteObjects uuid oSend bucket b w =
      .ok (sendRes oSend w.trace.length, addReq w (Req.deleteObjectsReq bucket b)) := by
  have hc : ¬ w.s3c.client = none := by simpa [Option.isSome_iff_ne_none] using hw
  rw [batchDeleteObjects, s3Ensure_of_isSome uuid w hw]
  cases h : oSend w.trace.length <;> simp [hc, hbk, hb, sendRes, h]

theorem writeItemsAll_run (table : String) (items : List Item) (w : World)
    (hdb : w.dbc.client.isSome) (ht : table ≠ "") (hi : items ≠ []) :
    writeItemsAll uuid oSend table items w =
      .ok (aggOut (sendOkRange oSend w.trace.length (chunkifyArray items BATCH_SIZE).length),
           addReqs w ((chunkifyArray items BATCH_SIZE).map (Req.batchWrite table))) := by
  have hc : ¬ w.dbc.client = none := by simpa [Option.isSome_iff_ne_none] using hdb
  have hcond : ¬ (table = "" ∨ items = []) := by simp [ht, hi]
  have hstep : ∀ wv ∈ chunkifyArray (chunkifyArray items BATCH_SIZE) CHUNK_SIZE, ∀ b ∈ wv,
      ∀ w', (fun v : World => v.dbc.client.isSome) w' →
        batchWriteItems uuid oSend table b w' =
          .ok (sendRes oSend w'.trace.length, addReq w' (Req.batchWrite table b)) := by
    intro wv hwv b hb w' hw'
    refine batchWriteItems_step uuid oSend table ht b ?_ w' hw'
    have hmem : b ∈ (chunkifyArray (chunkifyArray items BATCH_SIZE) CHUNK_SIZE).flatten :=
      List.mem_flatten_of_mem hwv hb
    rw [chunkifyArray_flatten _ CHUNK_SIZE (by decide)] at hmem
    exact chunkifyArray_ne_nil items BATCH_SIZE b hmem
  have hrun := flagWaves_ok (batchWriteItems uuid oSend table) (Req.batchWrite table)
    (fun _ u => sendRes oSend u) (fun v : World => v.dbc.client.isSome)
    (fun w' rs h => by simpa using h) _ hstep false w hdb
  simp only [writeItemsAll, dbEnsure_of_isSome uuid w hdb, if_neg hc, if_neg hcond, hrun]
  rw [wavesAllOk_sendRes, ← List.map_flatten,
    chunkifyArray_flatten (chunkifyArray items BATCH_SIZE) CHUNK_SIZE (by decide)]
  simp only [Bool.false_or, ifNot_aggOut]

theorem deleteItemsAll_run (table : String) (keys : List Item) (w : World)
    (hdb : w.dbc.client.isSome) (ht : table ≠ "") (hk : keys ≠ []) :
    deleteItemsAll uuid oSend table keys w =
      .ok (aggOut (sendOkRange oSend w.trace.length (chunkifyArray keys BATCH_SIZE).length),
           addReqs w ((chunkifyArray keys BATCH_SIZE).map (Req.batchDelete table))) := by
  have hc : ¬ w.dbc.client = none := by simpa [Option.isSome_iff_ne_none] using hdb
  have hcond : ¬ (table = "" ∨ keys = []) := by simp [ht, hk]
  have hstep : ∀ wv ∈ chunkifyArray (chunkifyArray keys BATCH_SIZE) CHUNK_SIZE, ∀ b ∈ wv,
      ∀ w', (fun v : World => v.dbc.client.isSome) w' →
        batchDeleteItems uuid oSend table b w' =
          .ok (sendRes oSend w'.trace.length, addReq w' (Req.batchDelete table b)) := by
    intro wv hwv b hb w' hw'
    refine batchDeleteItems_step uuid oSend table ht b ?_ w' hw'
    have hmem : b ∈ (chunkifyArray (chunkifyArray keys BATCH_SIZE) CHUNK_SIZE).flatten :=
      List.mem_flatten_of_mem hwv hb
    rw [chunkifyArray_flatten _ CHUNK_SIZE (by decide)] at hmem
    exact chunkifyArray_ne_nil keys BATCH_SIZE b hmem
  have hrun := flagWaves_ok (batchDeleteItems uuid oSend table) (Req.batchDelete table)
    (fun _ u => sendRes oSend u) (fun v : World => v.dbc.client.isSome)
    (fun w' rs h => by simpa using h) _ hstep false w hdb
  simp only [deleteItemsAll, dbEnsure_of_isSome uuid w hdb, if_neg hc, if_neg hcond, hrun]
  rw [wavesAllOk_sendRes, ← List.map_flatten,
    chunkifyArray_flatten (chunkifyArray keys BATCH_SIZE) CHUNK_SIZE (by decide)]
  simp only [Bool.false_or, ifNot_aggOut]

theorem deleteObjectsAll_run (bucket : String) (s3paths : List String) (w : World)
    (hs3 : w.s3c.client.isSome) (hbk : bucket ≠ "") (hp : s3paths ≠ []) :
    deleteObjectsAll uuid oSend bucket s3paths w =
      .ok (aggOut (sendOkRange oSend w.trace.length (chunkifyArray s3paths BATCH_SIZE).length),
           addReqs w ((chunkifyArray s3paths BATCH_SIZE).map (Req.deleteObjectsReq bucket))) := by
  have hc : ¬ w.s3c.client = none := by simpa [Option.isSome_iff_ne_none] using hs3
  have hcond : ¬ (bucket = "" ∨ s3paths = []) := by simp [hbk, hp]
  have hstep : ∀ wv ∈ chunkifyArray (chunkifyArray s3paths BATCH_SIZE) CHUNK_SIZE, ∀ b ∈ wv,
      ∀ w', (fun v : World => v.s3c.client.isSome) w' →
        batchDeleteObjects uuid oSend bucket b w' =
          .ok (sendRes oSend w'.trace.length, addReq w' (Req.deleteObjectsReq bucket b)) := by
    intro wv hwv b hb w' hw'
    refine batchDeleteObjects_step uuid oSend bucket hbk b ?_ w' hw'
    have hmem : b ∈ (chunkifyArray (chunkifyArray s3paths BATCH_SIZE) CHUNK_SIZE).flatten :=
      List.mem_flatten_of_mem hwv hb
    rw [chunkifyArray_flatten _ CHUNK_SIZE (by decide)] at hmem
    exact chunkifyArray_ne_nil s3paths BATCH_SIZE b hmem
  have hrun := flagWaves_ok (batchDeleteObjects uuid oSend bucket)
    (Req.deleteObjectsReq bucket)
    (fun _ u => sendRes oSend u) (fun v : World => v.s3c.client.isSome)
    (fun w' rs h => by simpa using h) _ hstep false w hs3
  simp only [deleteObjectsAll, s3Ensure_of_isSome uuid w hs3, if_neg hc, if_neg hcond, hrun]
  rw [wavesAllOk_sendRes, ← List.map_flatten,
    chunkifyArray_flatten (chunkifyArray s3paths BATCH_SIZE) CHUNK_SIZE (by decide)]
  simp only [Bool.false_or, ifNot_aggOut]

theorem readResFrom_add (t m n : Nat) :
    readResFrom oGet t (m + n) = readResFrom oGet t m ++ readResFrom oGet (t + m) n := by
  simp [readResFrom, List.range_add, Function.comp_def, Nat.add_assoc]

theorem readResFrom_succ (t n : Nat) :
    readResFrom oGet t (n + 1) = batchGetRes oGet t :: readResFrom oGet (t + 1) n := by
  have h := readResFrom_add oGet t 1 n
  rw [Nat.add_comm 1 n] at h
  rw [h]
  have h1 : List.range 1 = [0] := rfl
  simp [readResFrom, h1]

theorem resList_batchGetRes (l : List α) (t : Nat) :
    resList (fun _ u => batchGetRes oGet u) l t = readResFrom oGet t l.length := by
  induction l generalizing t with
  | nil => simp [resList, readResFrom]
  | cons a rest ih =>
    rw [resList, ih (t + 1), List.length_cons, readResFrom_succ]

theorem wavesResFrom_flatten (waves : List (List (List Item))) (t : Nat) :
    (wavesResFrom oGet t waves).flatten = readResFrom oGet t waves.flatten.length := by
  induction waves generalizing t with
  | nil => simp [wavesResFrom, readResFrom]
  | cons wv rest ih =>
    rw [wavesResFrom]
    simp only [List.flatten_cons, ih (t + wv.length), resList_batchGetRes,
      List.length_append]
    rw [readResFrom_add]

theorem jsFlat_append {γ : Type} (a b : List (Option (List γ))) :
    jsFlat (a ++ b) = jsFlat a ++ jsFlat b := by
  induction a with
  | nil => simp [jsFlat]
  | cons x rest ih =>
    cases x <;> simp [jsFlat, ih]

theorem jsFlat_flatten {γ : Type} (L : List (List (Option (List γ)))) :
    jsFlat L.flatten = (L.map jsFlat).flatten := by
  induction L with
  | nil => simp [jsFlat]
  | cons bs rest ih => simp [jsFlat_append, ih]

theorem none_mem_jsFlat {γ : Type} (bs : List (Option (List γ))) :
    none ∈ jsFlat bs ↔ none ∈ bs := by
  induction bs with
  | nil => simp [jsFlat]
  | cons x rest ih =>
    cases x with
    | none => simp [jsFlat]
    | some l =>
      simp only [jsFlat, List.mem_append, List.mem_cons, List.mem_map, ih]
      simp

theorem find_isNone_eq {γ : Type} [DecidableEq γ] (l : List (Option γ)) :
    l.find? (fun e => e.isNone) = some none ↔ none ∈ l := by
  induction l with
  | nil => simp
  | cons a rest ih =>
    cases a with
    | none => simp
    | some v => simpa using ih

/-- The error test of `readItemsAll`
(`icontents.find(e => e === null) === null`) is `true` exactly when the
flattened wave results contain at least one `null` entry. -/
theorem find_isNone_iff (l : List (Option Item)) :
    ((l.find? (fun e => e.isNone)) == some none) = true ↔ none ∈ l := by
  rw [beq_iff_eq]
  exact find_isNone_eq l

/-- One-step unfolding of `jsAgg`. -/
theorem jsAgg_cons (contents : Option (List (Option Item))) (errFlag : Bool)
    (bs : List (Option (List Item))) (rest : List (List (Option (List Item)))) :
    jsAgg contents errFlag (bs :: rest) =
      if ((jsFlat bs).find? (fun e => e.isNone)) == some none then jsAgg none true rest
      else if !errFlag then
        jsAgg (some (match contents with
          | some c => c ++ jsFlat bs
          | none => jsFlat bs)) errFlag rest
      else jsAgg contents errFlag rest := rfl

theorem jsAgg_err (wr : List (List (Option (List Item)))) : jsAgg none true wr = none := by
  induction wr with
  | nil => rfl
  | cons bs rest ih =>
    rw [jsAgg_cons]
    split
    · exact ih
    · simpa using ih

theorem jsAgg_hasNone (wr : List (List (Option (List Item))))
    (h : ∃ bs ∈ wr, none ∈ bs) (c : Option (List (Option Item))) (e : Bool) :
    jsAgg c e wr = none := by
  induction wr generalizing c e with
  | nil => simp at h
  | cons bs rest ih =>
    rw [jsAgg_cons]
    split
    · exact jsAgg_err rest
    · rename_i hcnd
      have hbs : ¬ none ∈ bs := by
        intro hnn
        exact hcnd (by simpa [find_isNone_eq, none_mem_jsFlat] using hnn)
      have hrest : ∃ bs' ∈ rest, none ∈ bs' := by
        rcases h with ⟨bs', hmem, hnn⟩
        rcases List.mem_cons.mp hmem with rfl | hmem'
        · exact absurd hnn hbs
        · exact ⟨bs', hmem', hnn⟩
      split
      · exact ih hrest _ _
      · exact ih hrest _ _

theorem jsAgg_clean (wr : List (List (Option (List Item))))
    (hnone : ∀ bs ∈ wr, ¬ none ∈ bs) (c : List (Option Item)) :
    jsAgg (some c) false wr = some (c ++ jsFlat wr.flatten) := by
  induction wr generalizing c with
  | nil => simp [jsAgg, jsFlat]
  | cons bs rest ih =>
    rw [jsAgg_cons]
    split
    · rename_i hcnd
      exact absurd (by simpa [find_isNone_eq, none_mem_jsFlat] using hcnd)
        (hnone bs (by simp))
    · simp only [Bool.not_false, if_true]
      rw [ih (fun bs' h => hnone bs' (by simp [h])) (c ++ jsFlat bs)]
      simp [jsFlat_append, List.append_assoc]

theorem jsAgg_clean_start (wr : List (List (Option (List Item)))) (hw : wr ≠ [])
    (hnone : ∀ bs ∈ wr, ¬ none ∈ bs) :
    jsAgg none false wr = some (jsFlat wr.flatten) := by
  cases wr with
  | nil => exact absurd rfl hw
  | cons bs rest =>
    rw [jsAgg_cons]
    split
    · rename_i hcnd
      exact absurd (by simpa [find_isNone_eq, none_mem_jsFlat] using hcnd)
        (hnone bs (by simp))
    · simp only [Bool.not_false, if_true]
      rw [jsAgg_clean rest (fun bs' h => hnone bs' (by simp [h])) (jsFlat bs)]
      simp [jsFlat_append]

theorem readWaves_ok (f : List Item → World → Except CustomError (Option (List Item) × World))
    (req : List Item → Req) (Inv : World → Prop)
    (hInv : ∀ w rs, Inv w → Inv (addReqs w rs))
    (waves : List (List (List Item)))
    (hstep : ∀ wv ∈ waves, ∀ b ∈ wv, ∀ w, Inv w →
      f b w = .ok (batchGetRes oGet w.trace.length, addReq w (req b)))
    (contents : Option (List (Option Item))) (errFlag : Bool) (w : World) (hw : Inv w) :
    readWaves f waves contents errFlag w =
      .ok (jsAgg contents errFlag (wavesResFrom oGet w.trace.length waves),
           addReqs w ((waves.map (fun wv => wv.map req)).flatten)) := by
  induction waves generalizing contents errFlag w with
  | nil => simp [readWaves, jsAgg, wavesResFrom]
  | cons wv rest ih =>
    rw [readWaves]
    simp only [mapWave_ok f req (fun _ u => batchGetRes oGet u) Inv hInv wv
      (hstep wv (by simp)) w hw]
    rw [wavesResFrom, jsAgg_cons]
    have ih' := ih (fun wv' h => hstep wv' (by simp [h]))
    split
    · rw [ih' none true (addReqs w (wv.map req)) (hInv w _ hw)]
      simp [addReqs_addReqs]
    · split
      · rw [ih' _ errFlag (addReqs w (wv.map req)) (hInv w _ hw)]
        simp [addReqs_addReqs]
      · rw [ih' contents errFlag (addReqs w (wv.map req)) (hInv w _ hw)]
        simp [addReqs_addReqs]

theorem batchReadItems_step (table : String) (ht : table ≠ "")
    (projection : Option String) (attrNames : Option Item)
    (b : List Item) (hb : b ≠ []) (w : World) (hw : w.dbc.client.isSome) :
    batchReadItems uuid oGet table b projection attrNames w =
      .ok (batchGetRes oGet w.trace.length,
           addReq w (Req.batchGet table b projection attrNames)) := by
  have hc : ¬ w.dbc.client = none := by simpa [Option.isSome_iff_ne_none] using hw
  rw [batchReadItems, dbEnsure_of_isSome uuid w hw]
  rcases h : oGet w.trace.length with nm | its
  · simp [hc, ht, hb, batchGetRes, h]
  · cases its <;> simp [hc, ht, hb, batchGetRes, h]

theorem readItemsAll_run (table : String) (keys : List Item)
    (projection : Option String) (attrNames : Option Item) (w : World)
    (hdb : w.dbc.client.isSome) (ht : table ≠ "") (hk : keys ≠ []) :
    readItemsAll uuid oGet table keys projection attrNames w =
      .ok (readOut oGet w.trace.length (chunkifyArray keys BATCH_SIZE).length,
           addReqs w ((chunkifyArray keys BATCH_SIZE).map
             (fun b => Req.batchGet table b projection attrNames))) := by
  have hc : ¬ w.dbc.client = none := by simpa [Option.isSome_iff_ne_none] using hdb
  have hcond : ¬ (table = "" ∨ keys = []) := by simp [ht, hk]
  have hstep : ∀ wv ∈ chunkifyArray (chunkifyArray keys BATCH_SIZE) CHUNK_SIZE, ∀ b ∈ wv,
      ∀ w', (fun v : World => v.dbc.client.isSome) w' →
        batchReadItems uuid oGet table b projection attrNames w' =
          .ok (batchGetRes oGet w'.trace.length,
               addReq w' (Req.batchGet table b projection attrNames)) := by
    intro wv hwv b hb w' hw'
    refine batchReadItems_step uuid oGet table ht projection attrNames b ?_ w' hw'
    have hmem : b ∈ (chunkifyArray (chunkifyArray keys BATCH_SIZE) CHUNK_SIZE).flatten :=
      List.mem_flatten_of_mem hwv hb
    rw [chunkifyArray_flatten _ CHUNK_SIZE (by decide)] at hmem
    exact chunkifyArray_ne_nil keys BATCH_SIZE b hmem
  have hrun := readWaves_ok oGet (fun ks => batchReadItems uuid oGet table ks projection attrNames)
    (fun b => Req.batchGet table b projection attrNames) (fun v : World => v.dbc.client.isSome)
    (fun w' rs h => by simpa using h) _ hstep none false w hdb
  simp only [readItemsAll, dbEnsure_of_isSome uuid w hdb, if_neg hc, if_neg hcond, hrun]
  rw [← List.map_flatten,
    chunkifyArray_flatten (chunkifyArray keys BATCH_SIZE) CHUNK_SIZE (by decide)]
  congr 1
  have hBne : chunkifyArray keys BATCH_SIZE ≠ [] := by
    rw [Ne, chunkifyArray_eq_nil_iff keys BATCH_SIZE (by decide)]
    exact hk
  have hWne : chunkifyArray (chunkifyArray keys BATCH_SIZE) CHUNK_SIZE ≠ [] := by
    rw [Ne, chunkifyArray_eq_nil_iff _ CHUNK_SIZE (by decide)]
    exact hBne
  by_cases hmem : none ∈ readResFrom oGet w.trace.length (chunkifyArray keys BATCH_SIZE).length
  · have hex : ∃ bs ∈ wavesResFrom oGet w.trace.length
        (chunkifyArray (chunkifyArray keys BATCH_SIZE) CHUNK_SIZE), none ∈ bs := by
      have : none ∈ (wavesResFrom oGet w.trace.length
          (chunkifyArray (chunkifyArray keys BATCH_SIZE) CHUNK_SIZE)).flatten := by
        rw [wavesResFrom_flatten,
          chunkifyArray_flatten (chunkifyArray keys BATCH_SIZE) CHUNK_SIZE (by decide)]
        exact hmem
      simpa using List.mem_flatten.mp this
    rw [jsAgg_hasNone _ hex none false, readOut, if_pos hmem]
  · have hnone : ∀ bs ∈ wavesResFrom oGet w.trace.length
        (chunkifyArray (chunkifyArray keys BATCH_SIZE) CHUNK_SIZE), ¬ none ∈ bs := by
      intro bs hbs hnn
      exact hmem (by
        have : none ∈ (wavesResFrom oGet w.trace.length
            (chunkifyArray (chunkifyArray keys BATCH_SIZE) CHUNK_SIZE)).flatten :=
          List.mem_flatten_of_mem hbs hnn
        rwa [wavesResFrom_flatten,
          chunkifyArray_flatten (chunkifyArray keys BATCH_SIZE) CHUNK_SIZE (by decide)] at this)
    have hWRne : wavesResFrom oGet w.trace.length
        (chunkifyArray (chunkifyArray keys BATCH_SIZE) CHUNK_SIZE) ≠ [] := by
      cases hwv : chunkifyArray (chunkifyArray keys BATCH_SIZE) CHUNK_SIZE with
      | nil => exact absurd hwv hWne
      | cons a l => rw [wavesResFrom]; simp
    rw [jsAgg_clean_start _ hWRne hnone, readOut, if_neg hmem, wavesResFrom_flatten,
      chunkifyArray_flatten (chunkifyArray keys BATCH_SIZE) CHUNK_SIZE (by decide)]

/-!
## Lemmas about the head pipeline
-/

@[simp] theorem afterRun_trace (w : World) (rs : List Req) (du : Nat) :
    (afterRun w rs du).trace = w.trace ++ rs := rfl

@[simp] theorem afterRun_dbc (w : World) (rs : List Req) (du : Nat) :
    (afterRun w rs du).dbc = w.dbc := rfl

@[simp] theorem afterRun_s3c (w : World) (rs : List Req) (du : Nat) :
    (afterRun w rs du).s3c = w.s3c := rfl

@[simp] theorem afterRun_uuidCtr (w : World) (rs : List Req) (du : Nat) :
    (afterRun w rs du).uuidCtr = w.uuidCtr + du := rfl

@[simp] theorem afterRun_trace_length (w : World) (rs : List Req) (du : Nat) :
    (afterRun w rs du).trace.length = w.trace.length + rs.length := by
  simp [afterRun]

theorem getObjectHead_step (bucket : String) (hbk : bucket ≠ "") (p : String) (hp : p ≠ "")
    (w : World) (hw : w.s3c.client.isSome) :
    getObjectHead uuid oHead bucket p w =
      .ok (headRes oHead w.trace.length p, addReq w (Req.headObjectReq bucket p)) := by
  have hc : ¬ w.s3c.client = none := by simpa [Option.isSome_iff_ne_none] using hw
  rw [getObjectHead, s3Ensure_of_isSome uuid w hw]
  rcases h : oHead w.trace.length with nm | d <;> simp [hc, hbk, hp, headRes, h]

theorem headResFrom_length (t : Nat) (ps : List String) :
    (headResFrom oHead t ps).length = ps.length := by
  induction ps generalizing t with
  | nil => rfl
  | cons p ps ih => simp [headResFrom, ih]

theorem resList_headRes (l : List String) (t : Nat) :
    resList (fun p u => headRes oHead u p) l t = headResFrom oHead t l := by
  induction l generalizing t with
  | nil => rfl
  | cons p ps ih => rw [resList, headResFrom, ih]

theorem headResFrom_append (t : Nat) (l1 l2 : List String) :
    headResFrom oHead t (l1 ++ l2) =
      headResFrom oHead t l1 ++ headResFrom oHead (t + l1.length) l2 := by
  induction l1 generalizing t with
  | nil => simp [headResFrom]
  | cons p ps ih =>
    simp only [List.cons_append, headResFrom, List.append_eq, List.length_cons]
    rw [ih (t + 1)]
    have harith : t + 1 + ps.length = t + (ps.length + 1) := by omega
    rw [harith]

theorem headLoop_some (f : String → World → Except CustomError (Option HeadObject × World))
    (bucket : String) (Inv : World → Prop)
    (hInv : ∀ w rs, Inv w → Inv (addReqs w rs))
    (chunks : List (List String))
    (hstep : ∀ ck ∈ chunks, ∀ p ∈ ck, ∀ w, Inv w →
      f p w = .ok (headRes oHead w.trace.length p, addReq w (Req.headObjectReq bucket p)))
    (c : List (Option HeadObject)) (w : World) (hw : Inv w) :
    headLoop f chunks (some c) w =
      .ok (some (c ++ headResFrom oHead w.trace.length chunks.flatten),
           addReqs w ((chunks.map (fun ck => ck.map (Req.headObjectReq bucket))).flatten)) := by
  induction chunks generalizing c w with
  | nil => simp [headLoop, headResFrom]
  | cons ck cks ih =>
    rw [headLoop]
    simp only [mapWave_ok f (Req.headObjectReq bucket) (fun p u => headRes oHead u p) Inv hInv
      ck (hstep ck (by simp)) w hw]
    rw [ih (fun ck' h => hstep ck' (by simp [h])) _ (addReqs w (ck.map (Req.headObjectReq bucket)))
      (hInv w _ hw)]
    simp only [resList_headRes, addReqs_trace_length, List.length_map, List.flatten_cons,
      headResFrom_append, addReqs_addReqs, List.map_cons, List.append_assoc]

theorem headLoop_start (f : String → World → Except CustomError (Option HeadObject × World))
    (bucket : String) (Inv : World → Prop)
    (hInv : ∀ w rs, Inv w → Inv (addReqs w rs))
    (chunks : List (List String)) (hne : chunks ≠ [])
    (hstep : ∀ ck ∈ chunks, ∀ p ∈ ck, ∀ w, Inv w →
      f p w = .ok (headRes oHead w.trace.length p, addReq w (Req.headObjectReq bucket p)))
    (w : World) (hw : Inv w) :
    headLoop f chunks none w =
      .ok (some (headResFrom oHead w.trace.length chunks.flatten),
           addReqs w ((chunks.map (fun ck => ck.map (Req.headObjectReq bucket))).flatten)) := by
  cases chunks with
  | nil => exact absurd rfl hne
  | cons ck cks =>
    rw [headLoop]
    simp only [mapWave_ok f (Req.headObjectReq bucket) (fun p u => headRes oHead u p) Inv hInv
      ck (hstep ck (by simp)) w hw]
    rw [headLoop_some oHead f bucket Inv hInv cks (fun ck' h => hstep ck' (by simp [h])) _
      (addReqs w (ck.map (Req.headObjectReq bucket))) (hInv w _ hw)]
    simp only [resList_headRes, addReqs_trace_length, List.length_map, List.flatten_cons,
      headResFrom_append, addReqs_addReqs, List.map_cons]

theorem getObjectHeadsAll_run (bucket : String) (s3paths : List String) (w : World)
    (hs3 : w.s3c.client.isSome) (hbk : bucket ≠ "") (hp : s3paths ≠ [])
    (hpe : ∀ p ∈ s3paths, p ≠ "") :
    getObjectHeadsAll uuid oHead bucket s3paths w =
      .ok (some ((headResFrom oHead w.trace.length s3paths).filter (fun e => e.isSome)),
           addReqs w (s3paths.map (Req.headObjectReq bucket))) := by
  have hc : ¬ w.s3c.client = none := by simpa [Option.isSome_iff_ne_none] using hs3
  have hcond : ¬ (bucket = "" ∨ s3paths = []) := by simp [hbk, hp]
  have hstep : ∀ ck ∈ chunkifyArray s3paths CHUNK_SIZE, ∀ p ∈ ck,
      ∀ w', (fun v : World => v.s3c.client.isSome) w' →
        getObjectHead uuid oHead bucket p w' =
          .ok (headRes oHead w'.trace.length p, addReq w' (Req.headObjectReq bucket p)) := by
    intro ck hck p hpmem w' hw'
    refine getObjectHead_step uuid oHead bucket hbk p ?_ w' hw'
    have hmem : p ∈ (chunkifyArray s3paths CHUNK_SIZE).flatten :=
      List.mem_flatten_of_mem hck hpmem
    rw [chunkifyArray_flatten _ CHUNK_SIZE (by decide)] at hmem
    exact hpe p hmem
  have hchne : chunkifyArray s3paths CHUNK_SIZE ≠ [] := by
    rw [Ne, chunkifyArray_eq_nil_iff _ CHUNK_SIZE (by decide)]
    exact hp
  have hrun := headLoop_start oHead (getObjectHead uuid oHead bucket) bucket
    (fun v : World => v.s3c.client.isSome) (fun w' rs h => by simpa using h)
    _ hchne hstep w hs3
  rw [chunkifyArray_flatten s3paths CHUNK_SIZE (by decide)] at hrun
  simp only [getObjectHeadsAll, s3Ensure_of_isSome uuid w hs3, if_neg hc, if_neg hcond, hrun]
  have hlen : ¬ (headResFrom oHead w.trace.length s3paths).length = 0 := by
    rw [headResFrom_length]
    simpa [List.length_eq_zero] using hp
  rw [if_pos hlen, ← List.map_flatten,
    chunkifyArray_flatten s3paths CHUNK_SIZE (by decide)]

/-!
## Lemmas about the upload pipeline
-/

theorem uploadFile_self_step (bucket : String) (hbk : bucket ≠ "") (f : String) (w : World)
    (hw : w.s3c.client.isSome) :
    uploadFile uuid oSend resolve mimeLookup bucket f (some f) w =
      (match uploadReqOf resolve mimeLookup bucket f with
       | none => .ok (none, w)
       | some r => .ok (sendRes oSend w.trace.length, addReq w r)) := by
  have hc : ¬ w.s3c.client = none := by simpa [Option.isSome_iff_ne_none] using hw
  rw [uploadFile, s3Ensure_of_isSome uuid w hw]
  by_cases hf : f = ""
  · subst hf
    simp [hc, uploadReqOf]
  · rcases hm : mimeLookup (extOf (baseName (assertPath resolve f))) with _ | ct
    · simp [hc, hbk, hf, uploadReqOf, hm]
    · cases h : oSend w.trace.length <;>
        simp [hc, hbk, hf, uploadReqOf, hm, sendRes, h]

theorem uploadWave_self (bucket : String) (hbk : bucket ≠ "") (l : List String) (w : World)
    (hw : w.s3c.client.isSome) :
    ∃ rs, uploadWave uuid oSend resolve mimeLookup bucket l l w =
      .ok (rs, addReqs w (l.filterMap (uploadReqOf resolve mimeLookup bucket))) := by
  induction l generalizing w with
  | nil => exact ⟨[], by simp [uploadWave]⟩
  | cons f fs ih =>
    rw [uploadWave]
    simp only [List.head?_cons, List.tail_cons,
      uploadFile_self_step uuid oSend resolve mimeLookup bucket hbk f w hw]
    rcases hr : uploadReqOf resolve mimeLookup bucket f with _ | r
    · obtain ⟨rs, hrs⟩ := ih w hw
      refine ⟨none :: rs, ?_⟩
      simp [hrs, List.filterMap_cons, hr]
    · obtain ⟨rs, hrs⟩ := ih (addReq w r) (by simpa using hw)
      refine ⟨sendRes oSend w.trace.length :: rs, ?_⟩
      rw [addReq_eq_addReqs] at hrs
      simp only [hr]
      rw [addReq_eq_addReqs]
      simp only [hrs]
      simp [List.filterMap_cons, hr, addReqs_addReqs]

theorem uploadLoop_self (bucket : String) (hbk : bucket ≠ "") (chunks : List (List String))
    (e : Bool) (w : World) (hw : w.s3c.client.isSome) :
    ∃ e', uploadLoop uuid oSend resolve mimeLookup bucket chunks chunks e w =
      .ok (e', addReqs w ((chunks.map
        (fun c => c.filterMap (uploadReqOf resolve mimeLookup bucket))).flatten)) := by
  induction chunks generalizing e w with
  | nil => exact ⟨e, by simp [uploadLoop]⟩
  | cons fc fcs ih =>
    rw [uploadLoop]
    obtain ⟨rs, hrs⟩ := uploadWave_self uuid oSend resolve mimeLookup bucket hbk fc w hw
    simp only [List.headD_cons, List.tail_cons, hrs]
    obtain ⟨e', he'⟩ := ih (e || !(rs.all (fun r => r == some true)))
      (addReqs w (fc.filterMap (uploadReqOf resolve mimeLookup bucket))) (by simpa using hw)
    refine ⟨e', ?_⟩
    simp [he', addReqs_addReqs]

theorem uploadFilesAll_nopaths (bucket : String) (files : List String) (w : World)
    (hs3 : w.s3c.client.isSome) (hbk : bucket ≠ "") (hf : files ≠ []) :
    ∃ res w', uploadFilesAll uuid oSend resolve mimeLookup bucket files none w =
      .ok (res, w') ∧
      w'.trace = w.trace ++ files.filterMap (uploadReqOf resolve mimeLookup bucket) := by
  have hc : ¬ w.s3c.client = none := by simpa [Option.isSome_iff_ne_none] using hs3
  have hcond : ¬ (bucket = "" ∨ files = []) := by simp [hbk, hf]
  obtain ⟨e', he'⟩ := uploadLoop_self uuid oSend resolve mimeLookup bucket hbk
    (chunkifyArray files CHUNK_SIZE) false w hs3
  refine ⟨if e' then none else some true,
    addReqs w (((chunkifyArray files CHUNK_SIZE).map
      (fun c => c.filterMap (uploadReqOf resolve mimeLookup bucket))).flatten), ?_, ?_⟩
  · simp only [uploadFilesAll, s3Ensure_of_isSome uuid w hs3, if_neg hc, if_neg hcond, he']
  · simp only [addReqs_trace]
    rw [← List.filterMap_flatten, chunkifyArray_flatten files CHUNK_SIZE (by decide)]

/-!
## Lemmas about the forced-unique-key write
-/

theorem afterRun_afterRun (w : World) (rs rs' : List Req) (du du' : Nat) :
    afterRun (afterRun w rs du) rs' du' = afterRun w (rs ++ rs') (du + du') := by
  simp [afterRun, List.append_assoc, Nat.add_assoc]

theorem itemGet_cons_of_ne (ka va : String) (l : Item) (k : String) (hk : (ka == k) = false) :
    itemGet ((ka, va) :: l) k = itemGet l k := by
  simp [itemGet, List.find?_cons, hk]

theorem itemGet_cons_self (ka va : String) (l : Item) (k : String) (hk : (ka == k) = true) :
    itemGet ((ka, va) :: l) k = some va := by
  simp [itemGet, List.find?_cons, hk]

theorem itemGet_map_set (rest : Item) (k v : String)
    (hs : (rest.find? (fun p => p.1 == k)).isSome = true) :
    itemGet (rest.map (fun p => if p.1 == k then (p.1, v) else p)) k = some v := by
  induction rest with
  | nil => simp at hs
  | cons a rest ih =>
    rcases a with ⟨ka, va⟩
    by_cases hk : (ka == k) = true
    · rw [List.map_cons]
      show itemGet ((if (ka == k) = true then (ka, v) else (ka, va)) :: _) k = some v
      rw [if_pos hk]
      exact itemGet_cons_self ka v _ k hk
    · have hk' : (ka == k) = false := by simpa using hk
      rw [List.map_cons]
      show itemGet ((if (ka == k) = true then (ka, v) else (ka, va)) :: _) k = some v
      rw [if_neg (by simp [hk']), itemGet_cons_of_ne ka va _ k hk']
      apply ih
      simpa [List.find?_cons, hk'] using hs

theorem itemGet_append_set (rest : Item) (k v : String)
    (hs : rest.find? (fun p => p.1 == k) = none) :
    itemGet (rest ++ [(k, v)]) k = some v := by
  induction rest with
  | nil => simp [itemGet]
  | cons a rest ih =>
    rcases a with ⟨ka, va⟩
    rcases hk : (ka == k) with _ | _
    · rw [List.cons_append, itemGet_cons_of_ne ka va _ k hk]
      apply ih
      simpa [List.find?_cons, hk] using hs
    · exfalso
      simp [List.find?_cons, hk] at hs

theorem itemGet_itemSet_self (it : Item) (k v : String) :
    itemGet (itemSet it k v) k = some v := by
  rw [itemSet]
  by_cases hs : (it.find? (fun p => p.1 == k)).isSome = true
  · rw [if_pos hs]
    exact itemGet_map_set it k v hs
  · rw [if_neg hs]
    apply itemGet_append_set
    rwa [← Option.not_isSome_iff_eq_none]

theorem jsFalsy_some_ne (s : String) (h : s ≠ "") : jsFalsy (some s) = false := by
  simp [jsFalsy, h]

theorem attemptItem_of_set (it : Item) (k : String) (u u' : Nat) (hu : uuid u ≠ "") :
    attemptItem uuid (itemSet it k (uuid u)) k u' = itemSet it k (uuid u) := by
  simp [attemptItem, itemGet_itemSet_self, jsFalsy_some_ne _ hu]

theorem attemptBump_of_set (it : Item) (k : String) (u : Nat) (hu : uuid u ≠ "") :
    attemptBump (itemSet it k (uuid u)) k = 0 := by
  simp [attemptBump, itemGet_itemSet_self, jsFalsy_some_ne _ hu]

/-- One attempt of `writeItemForceHelper` unfolded (initialized client,
non-empty table): assign a fresh key if the key field is falsy, dispatch the
conditional put, and react to the oracle outcome. -/
theorem wifh_step (table : String) (ht : table ≠ "") (item : Item) (key : String) (i : Nat)
    (w : World) (hw : w.dbc.client.isSome) :
    writeItemForceHelper uuid oSend table item key i w =
      (match oSend w.trace.length with
       | none => .ok (some (attemptItem uuid item key w.uuidCtr),
                      attemptItem uuid item key w.uuidCtr,
                      afterRun w [Req.putItemCond table (attemptItem uuid item key w.uuidCtr) key]
                        (attemptBump item key))
       | some nm =>
         if nm = "ConditionalCheckFailedException" then
           if i < 2 then
             writeItemForceHelper uuid oSend table
               (itemSet (attemptItem uuid item key w.uuidCtr) key
                 (uuid (w.uuidCtr + attemptBump item key)))
               key (i + 1)
               (afterRun w [Req.putItemCond table (attemptItem uuid item key w.uuidCtr) key]
                 (attemptBump item key + 1))
           else .ok (none, attemptItem uuid item key w.uuidCtr,
                     afterRun w [Req.putItemCond table (attemptItem uuid item key w.uuidCtr) key]
                       (attemptBump item key))
         else .ok (none, attemptItem uuid item key w.uuidCtr,
                   afterRun w [Req.putItemCond table (attemptItem uuid item key w.uuidCtr) key]
                     (attemptBump item key))) := by
  have hc : ¬ w.dbc.client = none := by simpa [Option.isSome_iff_ne_none] using hw
  rw [writeItemForceHelper]
  simp only [dbEnsure_of_isSome uuid w hw]
  by_cases hfal : jsFalsy (itemGet item key) = true
  · rcases h : oSend w.trace.length with _ | nm <;>
      simp [hc, ht, hfal, attemptItem, attemptBump, afterRun, addReq, h]
  · rcases h : oSend w.trace.length with _ | nm <;>
      simp [hc, ht, hfal, attemptItem, attemptBump, afterRun, addReq, h]

theorem wifh_success (table : String) (ht : table ≠ "") (item : Item) (key : String)
    (i : Nat) (w : World) (hw : w.dbc.client.isSome)
    (h0 : oSend w.trace.length = none) :
    writeItemForceHelper uuid oSend table item key i w =
      .ok (some (attemptItem uuid item key w.uuidCtr),
           attemptItem uuid item key w.uuidCtr,
           afterRun w [Req.putItemCond table (attemptItem uuid item key w.uuidCtr) key]
             (attemptBump item key)) := by
  rw [wifh_step uuid oSend table ht item key i w hw, h0]

theorem wifh_other_error (table : String) (ht : table ≠ "") (item : Item) (key : String)
    (i : Nat) (w : World) (hw : w.dbc.client.isSome) (nm : String)
    (h0 : oSend w.trace.length = some nm) (hnm : nm ≠ "ConditionalCheckFailedException") :
    writeItemForceHelper uuid oSend table item key i w =
      .ok (none, attemptItem uuid item key w.uuidCtr,
           afterRun w [Req.putItemCond table (attemptItem uuid item key w.uuidCtr) key]
             (attemptBump item key)) := by
  rw [wifh_step uuid oSend table ht item key i w hw, h0]
  simp [hnm]

theorem wifh_conflict_step (table : String) (ht : table ≠ "") (item : Item) (key : String)
    (i : Nat) (hi : i < 2) (w : World) (hw : w.dbc.client.isSome)
    (h0 : oSend w.trace.length = some "ConditionalCheckFailedException") :
    writeItemForceHelper uuid oSend table item key i w =
      writeItemForceHelper uuid oSend table
        (itemSet (attemptItem uuid item key w.uuidCtr) key
          (uuid (w.uuidCtr + attemptBump item key)))
        key (i + 1)
        (afterRun w [Req.putItemCond table (attemptItem uuid item key w.uuidCtr) key]
          (attemptBump item key + 1)) := by
  rw [wifh_step uuid oSend table ht item key i w hw, h0]
  simp [hi]

theorem wifh_conflict_exhausted (table : String) (ht : table ≠ "") (item : Item) (key : String)
    (w : World) (hw : w.dbc.client.isSome)
    (h0 : oSend w.trace.length = some "ConditionalCheckFailedException") :
    writeItemForceHelper uuid oSend table item key 2 w =
      .ok (none, attemptItem uuid item key w.uuidCtr,
           afterRun w [Req.putItemCond table (attemptItem uuid item key w.uuidCtr) key]
             (attemptBump item key)) := by
  rw [wifh_step uuid oSend table ht item key 2 w hw, h0]
  simp

theorem writeItemForce_ok (table : String) (ht : table ≠ "") (item : Item)
    (key : Option String) (w : World) (hw : w.dbc.client.isSome)
    (h0 : oSend w.trace.length = none) :
    writeItemForce uuid oSend table item key w =
      .ok (some (attemptItem uuid item (effKey key) w.uuidCtr),
           attemptItem uuid item (effKey key) w.uuidCtr,
           afterRun w
             [Req.putItemCond table (attemptItem uuid item (effKey key) w.uuidCtr) (effKey key)]
             (attemptBump item (effKey key))) := by
  rw [writeItemForce]
  exact wifh_success uuid oSend table ht item (effKey key) 0 w hw h0

theorem writeItemForce_other_err (table : String) (ht : table ≠ "") (item : Item)
    (key : Option String) (w : World) (hw : w.dbc.client.isSome) (nm : String)
    (h0 : oSend w.trace.length = some nm) (hnm : nm ≠ "ConditionalCheckFailedException") :
    writeItemForce uuid oSend table item key w =
      .ok (none, attemptItem uuid item (effKey key) w.uuidCtr,
           afterRun w
             [Req.putItemCond table (attemptItem uuid item (effKey key) w.uuidCtr) (effKey key)]
             (attemptBump item (effKey key))) := by
  rw [writeItemForce]
  exact wifh_other_error uuid oSend table ht item (effKey key) 0 w hw nm h0 hnm

theorem writeItemForce_retry_ok (hu : ∀ n, uuid n ≠ "") (table : String) (ht : table ≠ "")
    (item : Item) (key : Option String) (w : World) (hw : w.dbc.client.isSome)
    (h0 : oSend w.trace.length = some "ConditionalCheckFailedException")
    (h1 : oSend (w.trace.length + 1) = none) :
    writeItemForce uuid oSend table item key w =
      .ok (some (itemSet (attemptItem uuid item (effKey key) w.uuidCtr) (effKey key)
             (uuid (w.uuidCtr + attemptBump item (effKey key)))),
           itemSet (attemptItem uuid item (effKey key) w.uuidCtr) (effKey key)
             (uuid (w.uuidCtr + attemptBump item (effKey key))),
           afterRun w
             [Req.putItemCond table (attemptItem uuid item (effKey key) w.uuidCtr) (effKey key),
              Req.putItemCond table (itemSet (attemptItem uuid item (effKey key) w.uuidCtr)
                (effKey key) (uuid (w.uuidCtr + attemptBump item (effKey key)))) (effKey key)]
             (attemptBump item (effKey key) + 1)) := by
  rw [writeItemForce,
    wifh_conflict_step uuid oSend table ht item (effKey key) 0 (by omega) w hw h0]
  have hw1 : (afterRun w
      [Req.putItemCond table (attemptItem uuid item (effKey key) w.uuidCtr) (effKey key)]
      (attemptBump item (effKey key) + 1)).dbc.client.isSome := by simpa using hw
  rw [wifh_success uuid oSend table ht _ (effKey key) 1 _ hw1 (by simpa using h1)]
  rw [attemptItem_of_set uuid _ (effKey key) _ _ (hu _),
    attemptBump_of_set uuid _ (effKey key) _ (hu _), afterRun_afterRun]
  simp

theorem writeItemForce_all_conflicts (hu : ∀ n, uuid n ≠ "") (table : String) (ht : table ≠ "")
    (item : Item) (key : Option String) (w : World) (hw : w.dbc.client.isSome)
    (h0 : oSend w.trace.length = some "ConditionalCheckFailedException")
    (h1 : oSend (w.trace.length + 1) = some "ConditionalCheckFailedException")
    (h2 : oSend (w.trace.length + 2) = some "ConditionalCheckFailedException") :
    writeItemForce uuid oSend table item key w =
      .ok (none,
           itemSet (itemSet (attemptItem uuid item (effKey key) w.uuidCtr) (effKey key)
               (uuid (w.uuidCtr + attemptBump item (effKey key)))) (effKey key)
             (uuid (w.uuidCtr + attemptBump item (effKey key) + 1)),
           afterRun w
             [Req.putItemCond table (attemptItem uuid item (effKey key) w.uuidCtr) (effKey key),
              Req.putItemCond table (itemSet (attemptItem uuid item (effKey key) w.uuidCtr)
                (effKey key) (uuid (w.uuidCtr + attemptBump item (effKey key)))) (effKey key),
              Req.putItemCond table
                (itemSet (itemSet (attemptItem uuid item (effKey key) w.uuidCtr) (effKey key)
                    (uuid (w.uuidCtr + attemptBump item (effKey key)))) (effKey key)
                  (uuid (w.uuidCtr + attemptBump item (effKey key) + 1)))
                (effKey key)]
             (attemptBump item (effKey key) + 2)) := by
  rw [writeItemForce,
    wifh_conflict_step uuid oSend table ht item (effKey key) 0 (by omega) w hw h0]
  have hw1 : (afterRun w
      [Req.putItemCond table (attemptItem uuid item (effKey key) w.uuidCtr) (effKey key)]
      (attemptBump item (effKey key) + 1)).dbc.client.isSome := by simpa using hw
  rw [wifh_conflict_step uuid oSend table ht _ (effKey key) 1 (by omega) _ hw1
    (by simpa using h1)]
  rw [attemptItem_of_set uuid _ (effKey key) _ _ (hu _),
    attemptBump_of_set uuid _ (effKey key) _ (hu _), afterRun_afterRun]
  have hw2 : (afterRun w
      ([Req.putItemCond table (attemptItem uuid item (effKey key) w.uuidCtr) (effKey key)] ++
        [Req.putItemCond table (itemSet (attemptItem uuid item (effKey key) w.uuidCtr)
          (effKey key) (uuid (w.uuidCtr + attemptBump item (effKey key)))) (effKey key)])
      (attemptBump item (effKey key) + 1 + (0 + 1))).dbc.client.isSome := by simpa using hw
  rw [wifh_conflict_exhausted uuid oSend table ht _ (effKey key) _ hw2 (by simpa using h2)]
  rw [attemptItem_of_set uuid _ (effKey key) _ _ (hu _),
    attemptBump_of_set uuid _ (effKey key) _ (hu _), afterRun_afterRun]
  simp [afterRun, Nat.add_assoc]

theorem uuidS_ne (n : Nat) : uuidS n ≠ "" := by
  intro h
  have hlen := congrArg String.length h
  simp [uuidS, String.length_append] at hlen
  exact absurd hlen.1 (by decide)

end Model

/-!
## Claims
-/

/-- C1: for every bulk mutation operation (`writeItemsAll`, `deleteItemsAll`,
`deleteObjectsAll`) with an initialized client and a non-empty input list
(and a non-empty table/bucket name, so the run reaches the pipeline): the
result is `Except.ok` of `aggOut (sendOkRange …)` — i.e. `true` iff every
per-batch backend send succeeded, `null` (`none`) as soon as any batch failed —
and the trace is unconditionally extended by one `batchWrite`/`batchDelete`/
`deleteObjects` request per physical batch, so every batch in every wave is
dispatched even when an earlier wave already failed.  The final conjunct makes
the success criterion explicit: `sendOkRange oSend t n` holds iff all `n`
dispatched sends succeed. -/
theorem claim_C1_bulk_aggregate (uuid : Nat → String) (oSend : Nat → Option String)
    (table bucket : String) (items keys : List Item) (paths : List String) (w : World)
    (hdb : w.dbc.client.isSome) (hs3 : w.s3c.client.isSome)
    (ht : table ≠ "") (hbk : bucket ≠ "") (hi : items ≠ []) (hk : keys ≠ []) (hp : paths ≠ []) :
    (writeItemsAll uuid oSend table items w =
      .ok (aggOut (sendOkRange oSend w.trace.length (chunkifyArray items BATCH_SIZE).length),
           addReqs w ((chunkifyArray items BATCH_SIZE).map (Req.batchWrite table)))) ∧
    (deleteItemsAll uuid oSend table keys w =
      .ok (aggOut (sendOkRange oSend w.trace.length (chunkifyArray keys BATCH_SIZE).length),
           addReqs w ((chunkifyArray keys BATCH_SIZE).map (Req.batchDelete table)))) ∧
    (deleteObjectsAll uuid oSend bucket paths w =
      .ok (aggOut (sendOkRange oSend w.trace.length (chunkifyArray paths BATCH_SIZE).length),
           addReqs w ((chunkifyArray paths BATCH_SIZE).map (Req.deleteObjectsReq bucket)))) ∧
    (∀ t n, sendOkRange oSend t n = true ↔ ∀ j < n, oSend (t + j) = none) :=
  ⟨writeItemsAll_run uuid oSend table items w hdb ht hi,
   deleteItemsAll_run uuid oSend table keys w hdb ht hk,
   deleteObjectsAll_run uuid oSend bucket paths w hs3 hbk hp,
   fun t n => sendOkRange_iff oSend t n⟩

/-- Witness for C1 at a concrete input. -/
theorem claim_C1_bulk_aggregate_witness :
    (wInit.dbc.client.isSome ∧ wInit.s3c.client.isSome ∧ ("t" : String) ≠ "" ∧
     ("b" : String) ≠ "" ∧ ([it1] : List Item) ≠ [] ∧ (["p"] : List String) ≠ []) ∧
    ((writeItemsAll uuidS osOK "t" [it1] wInit =
      .ok (aggOut (sendOkRange osOK wInit.trace.length (chunkifyArray [it1] BATCH_SIZE).length),
           addReqs wInit ((chunkifyArray [it1] BATCH_SIZE).map (Req.batchWrite "t")))) ∧
    (deleteItemsAll uuidS osOK "t" [it1] wInit =
      .ok (aggOut (sendOkRange osOK wInit.trace.length (chunkifyArray [it1] BATCH_SIZE).length),
           addReqs wInit ((chunkifyArray [it1] BATCH_SIZE).map (Req.batchDelete "t")))) ∧
    (deleteObjectsAll uuidS osOK "b" ["p"] wInit =
      .ok (aggOut (sendOkRange osOK wInit.trace.length (chunkifyArray ["p"] BATCH_SIZE).length),
           addReqs wInit ((chunkifyArray ["p"] BATCH_SIZE).map (Req.deleteObjectsReq "b")))) ∧
    (∀ t n, sendOkRange osOK t n = true ↔ ∀ j < n, osOK (t + j) = none)) :=
  ⟨⟨by decide, by decide, by decide, by decide, by simp, by simp⟩,
   claim_C1_bulk_aggregate uuidS osOK "t" "b" [it1] [it1] ["p"] wInit
     (by decide) (by decide) (by decide) (by decide) (by simp) (by simp) (by simp)⟩

/-- C4: for `readItemsAll` with an initialized client, non-empty table and
non-empty key list, the run returns `readOut`: `null` as soon as any per-batch
read yielded `null`, otherwise the concatenation (`jsFlat`) of the per-batch
result lists in wave/batch order (no claim ties the item order to the input key
order) — while the trace is unconditionally extended by one `batchGet` request
per physical batch, so remaining batches are still read after a failure.  The
final conjunct settles the error test: `icontents.find(e => e === null) === null`
evaluates to `true` exactly when the flattened wave results contain a `null`. -/
theorem claim_C4_read_aggregate (uuid : Nat → String) (oGet : Nat → GetOut)
    (table : String) (keys : List Item) (projection : Option String) (attrNames : Option Item)
    (w : World) (hdb : w.dbc.client.isSome) (ht : table ≠ "") (hk : keys ≠ []) :
    (readItemsAll uuid oGet table keys projection attrNames w =
      .ok (readOut oGet w.trace.length (chunkifyArray keys BATCH_SIZE).length,
           addReqs w ((chunkifyArray keys BATCH_SIZE).map
             (fun b => Req.batchGet table b projection attrNames)))) ∧
    (∀ t n, readOut oGet t n = none ↔ none ∈ readResFrom oGet t n) ∧
    (∀ t n, ¬ none ∈ readResFrom oGet t n →
      readOut oGet t n = some (jsFlat (readResFrom oGet t n))) ∧
    (∀ (bs : List (Option (List Item))),
      (((jsFlat bs).find? (fun e => e.isNone)) == some none) = true ↔ none ∈ jsFlat bs) :=
  ⟨readItemsAll_run uuid oGet table keys projection attrNames w hdb ht hk,
   fun t n => by by_cases h : none ∈ readResFrom oGet t n <;> simp [readOut, h],
   fun t n h => by simp [readOut, h],
   fun bs => find_isNone_iff (jsFlat bs)⟩

/-- Witness for C4 at a concrete input. -/
theorem claim_C4_read_aggregate_witness :
    (wInit.dbc.client.isSome ∧ ("t" : String) ≠ "" ∧ ([it1] : List Item) ≠ []) ∧
    ((readItemsAll uuidS ogS "t" [it1] none none wInit =
      .ok (readOut ogS wInit.trace.length (chunkifyArray [it1] BATCH_SIZE).length,
           addReqs wInit ((chunkifyArray [it1] BATCH_SIZE).map
             (fun b => Req.batchGet "t" b none none)))) ∧
    (∀ t n, readOut ogS t n = none ↔ none ∈ readResFrom ogS t n) ∧
    (∀ t n, ¬ none ∈ readResFrom ogS t n →
      readOut ogS t n = some (jsFlat (readResFrom ogS t n))) ∧
    (∀ (bs : List (Option (List Item))),
      (((jsFlat bs).find? (fun e => e.isNone)) == some none) = true ↔ none ∈ jsFlat bs)) :=
  ⟨⟨by decide, by decide, by simp⟩,
   claim_C4_read_aggregate uuidS ogS "t" [it1] none none wInit (by decide) (by decide) (by simp)⟩

/-- C5: for every sequence `S` and positive size `N`, concatenating
`chunkifyArray S N` in order reproduces `S`; every chunk has length at most `N`;
every chunk except possibly the last has length exactly `N`; and chunking the
empty sequence yields no chunks. -/
theorem claim_C5_chunking {α : Type} (S : List α) (N : Nat) (hN : 0 < N) :
    (chunkifyArray S N).flatten = S ∧
    (∀ c ∈ chunkifyArray S N, c.length ≤ N) ∧
    (∀ i, i + 1 < (chunkifyArray S N).length → ((chunkifyArray S N).getD i []).length = N) ∧
    chunkifyArray ([] : List α) N = [] :=
  ⟨chunkifyArray_flatten S N hN,
   fun c hc => chunkifyArray_length_le S N c hc,
   fun i hi => chunkifyArray_length_eq S N hN i hi,
   chunkifyArray_nil N⟩

/-- Witness for C5 at a concrete input. -/
theorem claim_C5_chunking_witness :
    0 < 2 ∧
    ((chunkifyArray [1, 2, 3, 4, 5] 2).flatten = [1, 2, 3, 4, 5] ∧
    (∀ c ∈ chunkifyArray [1, 2, 3, 4, 5] 2, c.length ≤ 2) ∧
    (∀ i, i + 1 < (chunkifyArray [1, 2, 3, 4, 5] 2).length →
      ((chunkifyArray ([1, 2, 3, 4, 5] : List Nat) 2).getD i []).length = 2) ∧
    chunkifyArray ([] : List Nat) 2 = []) :=
  ⟨by decide, claim_C5_chunking [1, 2, 3, 4, 5] 2 (by decide)⟩

/-- C8: `init(region)` is first-writer-wins for both the db and the s3 client:
with the handle already set it performs no initialization, returns `false` and
leaves the handle (hence the `status()` probe) unchanged; with the handle empty
it sets the client and a fresh instance id and returns `true`. -/
theorem claim_C8_init_first_writer_wins (uuid : Nat → String) (region : String) (w : World) :
    (w.dbc.client.isSome → dbInit uuid region w = (false, w) ∧
      dbStatus (dbInit uuid region w).2 = dbStatus w) ∧
    (w.dbc.client = none → dbInit uuid region w =
      (true, { w with dbc := { client := some region, id := some (uuid w.uuidCtr) },
                      uuidCtr := w.uuidCtr + 1 })) ∧
    (w.s3c.client.isSome → s3Init uuid region w = (false, w) ∧
      s3Status (s3Init uuid region w).2 = s3Status w) ∧
    (w.s3c.client = none → s3Init uuid region w =
      (true, { w with s3c := { client := some region, id := some (uuid w.uuidCtr) },
                      uuidCtr := w.uuidCtr + 1 })) := by
  refine ⟨fun h => ?_, fun h => ?_, fun h => ?_, fun h => ?_⟩
  · have hne : ¬ w.dbc.client = none := by simpa [Option.isSome_iff_ne_none] using h
    simp [dbInit, hne, dbStatus]
  · simp [dbInit, h]
  · have hne : ¬ w.s3c.client = none := by simpa [Option.isSome_iff_ne_none] using h
    simp [s3Init, hne, s3Status]
  · simp [s3Init, h]

/-- Witness for C8 at concrete inputs (one initialized world, one empty world). -/
theorem claim_C8_init_first_writer_wins_witness :
    (wInit.dbc.client.isSome ∧ dbInit uuidS "r" wInit = (false, wInit) ∧
      dbStatus (dbInit uuidS "r" wInit).2 = dbStatus wInit) ∧
    (wEmpty.dbc.client = none ∧ dbInit uuidS "r" wEmpty =
      (true, { wEmpty with dbc := { client := some "r", id := some (uuidS wEmpty.uuidCtr) },
                           uuidCtr := wEmpty.uuidCtr + 1 })) ∧
    (wInit.s3c.client.isSome ∧ s3Init uuidS "r" wInit = (false, wInit) ∧
      s3Status (s3Init uuidS "r" wInit).2 = s3Status wInit) :=
  ⟨⟨by decide, ((claim_C8_init_first_writer_wins uuidS "r" wInit).1 (by decide)).1,
    ((claim_C8_init_first_writer_wins uuidS "r" wInit).1 (by decide)).2⟩,
   ⟨rfl, (claim_C8_init_first_writer_wins uuidS "r" wEmpty).2.1 rfl⟩,
   ⟨by decide, ((claim_C8_init_first_writer_wins uuidS "r" wInit).2.2.1 (by decide)).1,
    ((claim_C8_init_first_writer_wins uuidS "r" wInit).2.2.1 (by decide)).2⟩⟩

/-- C2: `writeItemForce` with an initialized client and non-empty table (uuids
from `short.uuid()` are never empty): a successful send returns the (possibly
key-mutated) item after one attempt; a key conflict with a success on the
retry returns the item with a freshly generated key after two attempts; three
consecutive conflicts return `null` after exactly three dispatched attempts (no
4th — the trace gains exactly the three conditional puts); any other error
returns `null` immediately after the single attempt. -/
theorem claim_C2_force_retry (uuid : Nat → String) (hu : ∀ n, uuid n ≠ "")
    (table : String) (item : Item) (key : Option String) (w : World)
    (hw : w.dbc.client.isSome) (ht : table ≠ "") :
    (∀ oSend : Nat → Option String, oSend w.trace.length = none →
      writeItemForce uuid oSend table item key w =
        .ok (some (attemptItem uuid item (effKey key) w.uuidCtr),
             attemptItem uuid item (effKey key) w.uuidCtr,
             afterRun w
               [Req.putItemCond table (attemptItem uuid item (effKey key) w.uuidCtr) (effKey key)]
               (attemptBump item (effKey key)))) ∧
    (∀ oSend : Nat → Option String,
      oSend w.trace.length = some "ConditionalCheckFailedException" →
      oSend (w.trace.length + 1) = none →
      writeItemForce uuid oSend table item key w =
        .ok (some (itemSet (attemptItem uuid item (effKey key) w.uuidCtr) (effKey key)
               (uuid (w.uuidCtr + attemptBump item (effKey key)))),
             itemSet (attemptItem uuid item (effKey key) w.uuidCtr) (effKey key)
               (uuid (w.uuidCtr + attemptBump item (effKey key))),
             afterRun w
               [Req.putItemCond table (attemptItem uuid item (effKey key) w.uuidCtr) (effKey key),
                Req.putItemCond table (itemSet (attemptItem uuid item (effKey key) w.uuidCtr)
                  (effKey key) (uuid (w.uuidCtr + attemptBump item (effKey key)))) (effKey key)]
               (attemptBump item (effKey key) + 1))) ∧
    (∀ oSend : Nat → Option String,
      oSend w.trace.length = some "ConditionalCheckFailedException" →
      oSend (w.trace.length + 1) = some "ConditionalCheckFailedException" →
      oSend (w.trace.length + 2) = some "ConditionalCheckFailedException" →
      writeItemForce uuid oSend table item key w =
        .ok (none,
             itemSet (itemSet (attemptItem uuid item (effKey key) w.uuidCtr) (effKey key)
                 (uuid (w.uuidCtr + attemptBump item (effKey key)))) (effKey key)
               (uuid (w.uuidCtr + attemptBump item (effKey key) + 1)),
             afterRun w
               [Req.putItemCond table (attemptItem uuid item (effKey key) w.uuidCtr) (effKey key),
                Req.putItemCond table (itemSet (attemptItem uuid item (effKey key) w.uuidCtr)
                  (effKey key) (uuid (w.uuidCtr + attemptBump item (effKey key)))) (effKey key),
                Req.putItemCond table
                  (itemSet (itemSet (attemptItem uuid item (effKey key) w.uuidCtr) (effKey key)
                      (uuid (w.uuidCtr + attemptBump item (effKey key)))) (effKey key)
                    (uuid (w.uuidCtr + attemptBump item (effKey key) + 1)))
                  (effKey key)]
               (attemptBump item (effKey key) + 2))) ∧
    (∀ (oSend : Nat → Option String) (nm : String), oSend w.trace.length = some nm →
      nm ≠ "ConditionalCheckFailedException" →
      writeItemForce uuid oSend table item key w =
        .ok (none, attemptItem uuid item (effKey key) w.uuidCtr,
             afterRun w
               [Req.putItemCond table (attemptItem uuid item (effKey key) w.uuidCtr) (effKey key)]
               (attemptBump item (effKey key)))) :=
  ⟨fun oSend h0 => writeItemForce_ok uuid oSend table ht item key w hw h0,
   fun oSend h0 h1 => writeItemForce_retry_ok uuid oSend hu table ht item key w hw h0 h1,
   fun oSend h0 h1 h2 =>
     writeItemForce_all_conflicts uuid oSend hu table ht item key w hw h0 h1 h2,
   fun oSend nm h0 hnm => writeItemForce_other_err uuid oSend table ht item key w hw nm h0 hnm⟩

/-- Witness for C2 at a concrete input. -/
theorem claim_C2_force_retry_witness :
    ((∀ n, uuidS n ≠ "") ∧ wInit.dbc.client.isSome ∧ ("t" : String) ≠ "") ∧
    ((∀ oSend : Nat → Option String, oSend wInit.trace.length = none →
      writeItemForce uuidS oSend "t" itT none wInit =
        .ok (some (attemptItem uuidS itT (effKey none) wInit.uuidCtr),
             attemptItem uuidS itT (effKey none) wInit.uuidCtr,
             afterRun wInit
               [Req.putItemCond "t" (attemptItem uuidS itT (effKey none) wInit.uuidCtr) (effKey none)]
               (attemptBump itT (effKey none)))) ∧
    (∀ oSend : Nat → Option String,
      oSend wInit.trace.length = some "ConditionalCheckFailedException" →
      oSend (wInit.trace.length + 1) = none →
      writeItemForce uuidS oSend "t" itT none wInit =
        .ok (some (itemSet (attemptItem uuidS itT (effKey none) wInit.uuidCtr) (effKey none)
               (uuidS (wInit.uuidCtr + attemptBump itT (effKey none)))),
             itemSet (attemptItem uuidS itT (effKey none) wInit.uuidCtr) (effKey none)
               (uuidS (wInit.uuidCtr + attemptBump itT (effKey none))),
             afterRun wInit
               [Req.putItemCond "t" (attemptItem uuidS itT (effKey none) wInit.uuidCtr) (effKey none),
                Req.putItemCond "t" (itemSet (attemptItem uuidS itT (effKey none) wInit.uuidCtr)
                  (effKey none) (uuidS (wInit.uuidCtr + attemptBump itT (effKey none)))) (effKey none)]
               (attemptBump itT (effKey none) + 1))) ∧
    (∀ oSend : Nat → Option String,
      oSend wInit.trace.length = some "ConditionalCheckFailedException" →
      oSend (wInit.trace.length + 1) = some "ConditionalCheckFailedException" →
      oSend (wInit.trace.length + 2) = some "ConditionalCheckFailedException" →
      writeItemForce uuidS oSend "t" itT none wInit =
        .ok (none,
             itemSet (itemSet (attemptItem uuidS itT (effKey none) wInit.uuidCtr) (effKey none)
                 (uuidS (wInit.uuidCtr + attemptBump itT (effKey none)))) (effKey none)
               (uuidS (wInit.uuidCtr + attemptBump itT (effKey none) + 1)),
             afterRun wInit
               [Req.putItemCond "t" (attemptItem uuidS itT (effKey none) wInit.uuidCtr) (effKey none),
                Req.putItemCond "t" (itemSet (attemptItem uuidS itT (effKey none) wInit.uuidCtr)
                  (effKey none) (uuidS (wInit.uuidCtr + attemptBump itT (effKey none)))) (effKey none),
                Req.putItemCond "t"
                  (itemSet (itemSet (attemptItem uuidS itT (effKey none) wInit.uuidCtr) (effKey none)
                      (uuidS (wInit.uuidCtr + attemptBump itT (effKey none)))) (effKey none)
                    (uuidS (wInit.uuidCtr + attemptBump itT (effKey none) + 1)))
                  (effKey none)]
               (attemptBump itT (effKey none) + 2))) ∧
    (∀ (oSend : Nat → Option String) (nm : String), oSend wInit.trace.length = some nm →
      nm ≠ "ConditionalCheckFailedException" →
      writeItemForce uuidS oSend "t" itT none wInit =
        .ok (none, attemptItem uuidS itT (effKey none) wInit.uuidCtr,
             afterRun wInit
               [Req.putItemCond "t" (attemptItem uuidS itT (effKey none) wInit.uuidCtr) (effKey none)]
               (attemptBump itT (effKey none))))) :=
  ⟨⟨uuidS_ne, by decide, by decide⟩,
   claim_C2_force_retry uuidS uuidS_ne "t" itT none wInit (by decide) (by decide)⟩

/-- C9 (frame effect): when the item initially lacks its key field,
`writeItemForce` writes a freshly generated key into the caller's item (the
second component of the result models the caller-visible object), and writes a
new one on every conflict retry; the mutation persists after the call even when
the overall result is `null` — after three conflicts the item carries the third
generated key, and after a non-conflict error it keeps the first generated key;
it is never restored to its keyless pre-call state. -/
theorem claim_C9_force_mutation (uuid : Nat → String) (hu : ∀ n, uuid n ≠ "")
    (table : String) (item : Item) (key : Option String) (w : World)
    (hw : w.dbc.client.isSome) (ht : table ≠ "")
    (hk : itemGet item (effKey key) = none) :
    (∀ oSend : Nat → Option String, oSend w.trace.length = none →
      writeItemForce uuid oSend table item key w =
        .ok (some (itemSet item (effKey key) (uuid w.uuidCtr)),
             itemSet item (effKey key) (uuid w.uuidCtr),
             afterRun w
               [Req.putItemCond table (itemSet item (effKey key) (uuid w.uuidCtr)) (effKey key)]
               1) ∧
      itemGet (itemSet item (effKey key) (uuid w.uuidCtr)) (effKey key) =
        some (uuid w.uuidCtr)) ∧
    (∀ oSend : Nat → Option String,
      oSend w.trace.length = some "ConditionalCheckFailedException" →
      oSend (w.trace.length + 1) = some "ConditionalCheckFailedException" →
      oSend (w.trace.length + 2) = some "ConditionalCheckFailedException" →
      writeItemForce uuid oSend table item key w =
        .ok (none,
             itemSet (itemSet (itemSet item (effKey key) (uuid w.uuidCtr)) (effKey key)
                 (uuid (w.uuidCtr + 1))) (effKey key) (uuid (w.uuidCtr + 2)),
             afterRun w
               [Req.putItemCond table (itemSet item (effKey key) (uuid w.uuidCtr)) (effKey key),
                Req.putItemCond table (itemSet (itemSet item (effKey key) (uuid w.uuidCtr))
                  (effKey key) (uuid (w.uuidCtr + 1))) (effKey key),
                Req.putItemCond table
                  (itemSet (itemSet (itemSet item (effKey key) (uuid w.uuidCtr)) (effKey key)
                      (uuid (w.uuidCtr + 1))) (effKey key) (uuid (w.uuidCtr + 2)))
                  (effKey key)]
               3) ∧
      itemGet (itemSet (itemSet (itemSet item (effKey key) (uuid w.uuidCtr)) (effKey key)
          (uuid (w.uuidCtr + 1))) (effKey key) (uuid (w.uuidCtr + 2))) (effKey key) =
        some (uuid (w.uuidCtr + 2))) ∧
    (∀ (oSend : Nat → Option String) (nm : String), oSend w.trace.length = some nm →
      nm ≠ "ConditionalCheckFailedException" →
      writeItemForce uuid oSend table item key w =
        .ok (none, itemSet item (effKey key) (uuid w.uuidCtr),
             afterRun w
               [Req.putItemCond table (itemSet item (effKey key) (uuid w.uuidCtr)) (effKey key)]
               1) ∧
      itemGet (itemSet item (effKey key) (uuid w.uuidCtr)) (effKey key) =
        some (uuid w.uuidCtr)) := by
  have hai : attemptItem uuid item (effKey key) w.uuidCtr =
      itemSet item (effKey key) (uuid w.uuidCtr) := by
    simp [attemptItem, jsFalsy, hk]
  have hab : attemptBump item (effKey key) = 1 := by
    simp [attemptBump, jsFalsy, hk]
  refine ⟨fun oSend h0 => ?_, fun oSend h0 h1 h2 => ?_, fun oSend nm h0 hnm => ?_⟩
  · have h := writeItemForce_ok uuid oSend table ht item key w hw h0
    rw [hai, hab] at h
    exact ⟨h, itemGet_itemSet_self _ _ _⟩
  · have h := writeItemForce_all_conflicts uuid oSend hu table ht item key w hw h0 h1 h2
    rw [hai, hab] at h
    exact ⟨h, itemGet_itemSet_self _ _ _⟩
  · have h := writeItemForce_other_err uuid oSend table ht item key w hw nm h0 hnm
    rw [hai, hab] at h
    exact ⟨h, itemGet_itemSet_self _ _ _⟩

/-- Witness for C9 at a concrete input (item without an `id` field). -/
theorem claim_C9_force_mutation_witness :
    ((∀ n, uuidS n ≠ "") ∧ wInit.dbc.client.isSome ∧ ("t" : String) ≠ "" ∧
     itemGet itT (effKey none) = none) ∧
    ((∀ oSend : Nat → Option String, oSend wInit.trace.length = none →
      writeItemForce uuidS oSend "t" itT none wInit =
        .ok (some (itemSet itT (effKey none) (uuidS wInit.uuidCtr)),
             itemSet itT (effKey none) (uuidS wInit.uuidCtr),
             afterRun wInit
               [Req.putItemCond "t" (itemSet itT (effKey none) (uuidS wInit.uuidCtr)) (effKey none)]
               1) ∧
      itemGet (itemSet itT (effKey none) (uuidS wInit.uuidCtr)) (effKey none) =
        some (uuidS wInit.uuidCtr)) ∧
    (∀ oSend : Nat → Option String,
      oSend wInit.trace.length = some "ConditionalCheckFailedException" →
      oSend (wInit.trace.length + 1) = some "ConditionalCheckFailedException" →
      oSend (wInit.trace.length + 2) = some "ConditionalCheckFailedException" →
      writeItemForce uuidS oSend "t" itT none wInit =
        .ok (none,
             itemSet (itemSet (itemSet itT (effKey none) (uuidS wInit.uuidCtr)) (effKey none)
                 (uuidS (wInit.uuidCtr + 1))) (effKey none) (uuidS (wInit.uuidCtr + 2)),
             afterRun wInit
               [Req.putItemCond "t" (itemSet itT (effKey none) (uuidS wInit.uuidCtr)) (effKey none),
                Req.putItemCond "t" (itemSet (itemSet itT (effKey none) (uuidS wInit.uuidCtr))
                  (effKey none) (uuidS (wInit.uuidCtr + 1))) (effKey none),
                Req.putItemCond "t"
                  (itemSet (itemSet (itemSet itT (effKey none) (uuidS wInit.uuidCtr)) (effKey none)
                      (uuidS (wInit.uuidCtr + 1))) (effKey none) (uuidS (wInit.uuidCtr + 2)))
                  (effKey none)]
               3) ∧
      itemGet (itemSet (itemSet (itemSet itT (effKey none) (uuidS wInit.uuidCtr)) (effKey none)
          (uuidS (wInit.uuidCtr + 1))) (effKey none) (uuidS (wInit.uuidCtr + 2))) (effKey none) =
        some (uuidS (wInit.uuidCtr + 2))) ∧
    (∀ (oSend : Nat → Option String) (nm : String), oSend wInit.trace.length = some nm →
      nm ≠ "ConditionalCheckFailedException" →
      writeItemForce uuidS oSend "t" itT none wInit =
        .ok (none, itemSet itT (effKey none) (uuidS wInit.uuidCtr),
             afterRun wInit
               [Req.putItemCond "t" (itemSet itT (effKey none) (uuidS wInit.uuidCtr)) (effKey none)]
               1) ∧
      itemGet (itemSet itT (effKey none) (uuidS wInit.uuidCtr)) (effKey none) =
        some (uuidS wInit.uuidCtr))) :=
  ⟨⟨uuidS_ne, by decide, by decide, by decide⟩,
   claim_C9_force_mutation uuidS uuidS_ne "t" itT none wInit (by decide) (by decide) (by decide)⟩

/-- C6 counterexample: with an initialized client, one path, and a head send
that throws, `getObjectHeadsAll` does NOT return the failure signal `null` — it
returns `some []` (the failed head is filtered out), refuting "if any per-item
head operation fails, the overall result is failure". -/
theorem claim_C6_heads_counterexample :
    getObjectHeadsAll uuidS ohErr "b" ["p"] wInit =
      .ok (some [], addReqs wInit [Req.headObjectReq "b" "p"]) ∧
    headRes ohErr wInit.trace.length "p" = none ∧
    (some ([] : List (Option HeadObject)) ≠ (none : Option (List (Option HeadObject)))) := by
  refine ⟨?_, rfl, by simp⟩
  have h := getObjectHeadsAll_run uuidS ohErr "b" ["p"] wInit (by decide) (by decide)
    (by simp) (by decide)
  rw [h]
  rfl

/-- C6 amended: `getObjectHeadsAll` (initialized client, non-empty bucket and
non-empty list of non-empty paths) never signals per-item failure: it returns
the per-path head results in chunk order with the failed (`null`) heads
filtered out, dispatches one head request per path, and in particular its
result is never `null` no matter how many heads fail. -/
theorem claim_C6_heads_aggregate_amended (uuid : Nat → String) (oHead : Nat → HeadOut)
    (bucket : String) (s3paths : List String) (w : World)
    (hs3 : w.s3c.client.isSome) (hbk : bucket ≠ "") (hp : s3paths ≠ [])
    (hpe : ∀ p ∈ s3paths, p ≠ "") :
    (getObjectHeadsAll uuid oHead bucket s3paths w =
      .ok (some ((headResFrom oHead w.trace.length s3paths).filter (fun e => e.isSome)),
           addReqs w (s3paths.map (Req.headObjectReq bucket)))) ∧
    (∀ w', getObjectHeadsAll uuid oHead bucket s3paths w ≠ .ok (none, w')) := by
  have h := getObjectHeadsAll_run uuid oHead bucket s3paths w hs3 hbk hp hpe
  refine ⟨h, fun w' hcontra => ?_⟩
  rw [h] at hcontra
  simp at hcontra

/-- Witness for the amended C6 at a concrete input. -/
theorem claim_C6_heads_aggregate_amended_witness :
    (wInit.s3c.client.isSome ∧ ("b" : String) ≠ "" ∧ (["p"] : List String) ≠ [] ∧
     (∀ p ∈ (["p"] : List String), p ≠ "")) ∧
    ((getObjectHeadsAll uuidS ohOK "b" ["p"] wInit =
      .ok (some ((headResFrom ohOK wInit.trace.length ["p"]).filter (fun e => e.isSome)),
           addReqs wInit ((["p"] : List String).map (Req.headObjectReq "b")))) ∧
    (∀ w', getObjectHeadsAll uuidS ohOK "b" ["p"] wInit ≠ .ok (none, w'))) :=
  ⟨⟨by decide, by decide, by simp, by decide⟩,
   claim_C6_heads_aggregate_amended uuidS ohOK "b" ["p"] wInit (by decide) (by decide)
     (by simp) (by decide)⟩

/-- C10: when `uploadFilesAll` is called without the optional `s3paths`
argument, each file is paired with itself (`chunkedPaths = chunkedFiles`),
so `uploadFile` receives `s3path = file` and every dispatched put-file request
uses the file string itself as the S3 key (`uploadReqOf`), never the
basename-fallback derivation; the second conjunct makes the key explicit, and
the third records the per-file invocation with `s3path = some file`. -/
theorem claim_C10_upload_default_paths (uuid : Nat → String) (oSend : Nat → Option String)
    (resolve : String → String) (mimeLookup : String → Option String)
    (bucket : String) (files : List String) (w : World)
    (hs3 : w.s3c.client.isSome) (hbk : bucket ≠ "") (hf : files ≠ []) :
    (∃ res w', uploadFilesAll uuid oSend resolve mimeLookup bucket files none w =
      .ok (res, w') ∧
      w'.trace = w.trace ++ files.filterMap (uploadReqOf resolve mimeLookup bucket)) ∧
    (∀ f r, uploadReqOf resolve mimeLookup bucket f = some r →
      r = Req.putFileReq bucket (assertPath resolve f) f) ∧
    (∀ (f : String) (w1 : World), w1.s3c.client.isSome →
      uploadFile uuid oSend resolve mimeLookup bucket f (some f) w1 =
        (match uploadReqOf resolve mimeLookup bucket f with
         | none => .ok (none, w1)
         | some r => .ok (sendRes oSend w1.trace.length, addReq w1 r))) := by
  refine ⟨uploadFilesAll_nopaths uuid oSend resolve mimeLookup bucket files w hs3 hbk hf,
    fun f r hr => ?_, fun f w1 hw1 => uploadFile_self_step uuid oSend resolve mimeLookup
      bucket hbk f w1 hw1⟩
  rw [uploadReqOf] at hr
  by_cases hfe : f = ""
  · simp [hfe] at hr
  · rw [if_neg hfe] at hr
    rcases hm : mimeLookup (extOf (baseName (assertPath resolve f))) with _ | ct
    · rw [hm] at hr
      simp at hr
    · rw [hm] at hr
      simpa using hr.symm

/-- Witness for C10 at a concrete input. -/
theorem claim_C10_upload_default_paths_witness :
    (wInit.s3c.client.isSome ∧ ("b" : String) ≠ "" ∧ (["a.txt"] : List String) ≠ []) ∧
    ((∃ res w', uploadFilesAll uuidS osOK resolveS mimeS "b" ["a.txt"] none wInit =
      .ok (res, w') ∧
      w'.trace = wInit.trace ++
        (["a.txt"] : List String).filterMap (uploadReqOf resolveS mimeS "b")) ∧
    (∀ f r, uploadReqOf resolveS mimeS "b" f = some r →
      r = Req.putFileReq "b" (assertPath resolveS f) f) ∧
    (∀ (f : String) (w1 : World), w1.s3c.client.isSome →
      uploadFile uuidS osOK resolveS mimeS "b" f (some f) w1 =
        (match uploadReqOf resolveS mimeS "b" f with
         | none => .ok (none, w1)
         | some r => .ok (sendRes osOK w1.trace.length, addReq w1 r)))) :=
  ⟨⟨by decide, by decide, by simp⟩,
   claim_C10_upload_default_paths uuidS osOK resolveS mimeS "b" ["a.txt"] wInit
     (by decide) (by decide) (by simp)⟩

/-- C3 counterexample: with both clients uninitialized and no region in the
environment, a public operation (`putObject`, likewise `writeItemForce`) does
not return `null` — it propagates the initializer's thrown error, because every
public operation calls `tryInit()` with the non-silent default. -/
theorem claim_C3_uninitialized_counterexample :
    putObject uuidS osOK "b" "k" "c" wEmpty =
      .error (AWSS3Error "Could not auto-initialize AWS S3!") ∧
    writeItemForce uuidS osOK "t" it1 none wEmpty =
      .error (DynamoDBError "Could not auto-initialize DynamoDB!") ∧
    wEmpty.dbc.client = none ∧ wEmpty.s3c.client = none ∧ wEmpty.region = "" := by
  refine ⟨?_, ?_, rfl, rfl, rfl⟩
  · simp [putObject, s3Ensure_uninit uuidS wEmpty rfl rfl]
  · simp [writeItemForce, writeItemForceHelper, dbEnsure_uninit uuidS wEmpty rfl rfl]

/-- C3 amended: when the client handle is uninitialized and the environment
supplies no region, every modelled public operation of the key-value and
blob-store modules THROWS the Uninitialized-kind error (`DynamoDBError` /
`AWSS3Error` raised by the non-silent `tryInit()` each operation performs
first) instead of returning `null`; the thrown error still originates in the
lowest-level initializer, but it propagates out of every public operation. -/
theorem claim_C3_uninitialized_amended (uuid : Nat → String) (oSend : Nat → Option String)
    (oGet : Nat → GetOut) (oHead : Nat → HeadOut) (resolve : String → String)
    (mimeLookup : String → Option String) (w : World)
    (hdb : w.dbc.client = none) (hs3 : w.s3c.client = none) (hr : w.region = "") :
    (∀ table item key, writeItemForce uuid oSend table item key w =
      .error (DynamoDBError "Could not auto-initialize DynamoDB!")) ∧
    (∀ table items, writeItemsAll uuid oSend table items w =
      .error (DynamoDBError "Could not auto-initialize DynamoDB!")) ∧
    (∀ table keys, deleteItemsAll uuid oSend table keys w =
      .error (DynamoDBError "Could not auto-initialize DynamoDB!")) ∧
    (∀ table keys projection attrNames, readItemsAll uuid oGet table keys projection attrNames w =
      .error (DynamoDBError "Could not auto-initialize DynamoDB!")) ∧
    (∀ bucket s3path contents, putObject uuid oSend bucket s3path contents w =
      .error (AWSS3Error "Could not auto-initialize AWS S3!")) ∧
    (∀ bucket file s3path, uploadFile uuid oSend resolve mimeLookup bucket file s3path w =
      .error (AWSS3Error "Could not auto-initialize AWS S3!")) ∧
    (∀ bucket files s3paths, uploadFilesAll uuid oSend resolve mimeLookup bucket files s3paths w =
      .error (AWSS3Error "Could not auto-initialize AWS S3!")) ∧
    (∀ bucket s3path, getObjectHead uuid oHead bucket s3path w =
      .error (AWSS3Error "Could not auto-initialize AWS S3!")) ∧
    (∀ bucket s3paths, getObjectHeadsAll uuid oHead bucket s3paths w =
      .error (AWSS3Error "Could not auto-initialize AWS S3!")) ∧
    (∀ bucket s3paths, deleteObjectsAll uuid oSend bucket s3paths w =
      .error (AWSS3Error "Could not auto-initialize AWS S3!")) := by
  have hdbe := dbEnsure_uninit uuid w hdb hr
  have hs3e := s3Ensure_uninit uuid w hs3 hr
  refine ⟨?_, ?_, ?_, ?_, ?_, ?_, ?_, ?_, ?_, ?_⟩ <;> intros <;>
    simp [writeItemForce, writeItemForceHelper, writeItemsAll, deleteItemsAll, readItemsAll,
      putObject, uploadFile, uploadFilesAll, getObjectHead, getObjectHeadsAll,
      deleteObjectsAll, hdbe, hs3e]

/-- Witness for the amended C3 at a concrete input. -/
theorem claim_C3_uninitialized_amended_witness :
    (wEmpty.dbc.client = none ∧ wEmpty.s3c.client = none ∧ wEmpty.region = "") ∧
    ((∀ table item key, writeItemForce uuidS osOK table item key wEmpty =
      .error (DynamoDBError "Could not auto-initialize DynamoDB!")) ∧
    (∀ table items, writeItemsAll uuidS osOK table items wEmpty =
      .error (DynamoDBError "Could not auto-initialize DynamoDB!")) ∧
    (∀ table keys, deleteItemsAll uuidS osOK table keys wEmpty =
      .error (DynamoDBError "Could not auto-initialize DynamoDB!")) ∧
    (∀ table keys projection attrNames,
      readItemsAll uuidS ogS table keys projection attrNames wEmpty =
        .error (DynamoDBError "Could not auto-initialize DynamoDB!")) ∧
    (∀ bucket s3path contents, putObject uuidS osOK bucket s3path contents wEmpty =
      .error (AWSS3Error "Could not auto-initialize AWS S3!")) ∧
    (∀ bucket file s3path, uploadFile uuidS osOK resolveS mimeS bucket file s3path wEmpty =
      .error (AWSS3Error "Could not auto-initialize AWS S3!")) ∧
    (∀ bucket files s3paths, uploadFilesAll uuidS osOK resolveS mimeS bucket files s3paths wEmpty =
      .error (AWSS3Error "Could not auto-initialize AWS S3!")) ∧
    (∀ bucket s3path, getObjectHead uuidS ohOK bucket s3path wEmpty =
      .error (AWSS3Error "Could not auto-initialize AWS S3!")) ∧
    (∀ bucket s3paths, getObjectHeadsAll uuidS ohOK bucket s3paths wEmpty =
      .error (AWSS3Error "Could not auto-initialize AWS S3!")) ∧
    (∀ bucket s3paths, deleteObjectsAll uuidS osOK bucket s3paths wEmpty =
      .error (AWSS3Error "Could not auto-initialize AWS S3!"))) :=
  ⟨⟨rfl, rfl, rfl⟩,
   claim_C3_uninitialized_amended uuidS osOK ogS ohOK resolveS mimeS wEmpty rfl rfl rfl⟩

/-- C7 counterexample: when the client is uninitialized and no region is
available, a bulk operation called with an EMPTY input list does not return
`null` — the non-silent `tryInit()` runs before input validation and throws. -/
theorem claim_C7_invalid_input_counterexample :
    deleteItemsAll uuidS osOK "t" [] wEmpty =
      .error (DynamoDBError "Could not auto-initialize DynamoDB!") ∧
    uploadFilesAll uuidS osOK resolveS mimeS "b" [] none wEmpty =
      .error (AWSS3Error "Could not auto-initialize AWS S3!") ∧
    wEmpty.dbc.client = none ∧ wEmpty.region = "" := by
  refine ⟨?_, ?_, rfl, rfl⟩
  · simp [deleteItemsAll, dbEnsure_uninit uuidS wEmpty rfl rfl]
  · simp [uploadFilesAll, s3Ensure_uninit uuidS wEmpty rfl rfl]

/-- C7 amended: provided the operation's `tryInit()` cannot throw (client
already initialized, or a region available for auto-initialization), every bulk
operation returns `null` immediately on an empty input list, a missing
table/bucket name, or a mismatched parallel `s3paths` list — and issues no
backend call (the trace is unchanged). -/
theorem claim_C7_invalid_input_amended (uuid : Nat → String) (oSend : Nat → Option String)
    (oGet : Nat → GetOut) (oHead : Nat → HeadOut) (resolve : String → String)
    (mimeLookup : String → Option String) (w : World)
    (hdb : w.dbc.client.isSome ∨ w.region ≠ "") (hs3 : w.s3c.client.isSome ∨ w.region ≠ "") :
    (∀ table, ∃ w', writeItemsAll uuid oSend table [] w = .ok (none, w') ∧
      w'.trace = w.trace) ∧
    (∀ items, ∃ w', writeItemsAll uuid oSend "" items w = .ok (none, w') ∧
      w'.trace = w.trace) ∧
    (∀ table, ∃ w', deleteItemsAll uuid oSend table [] w = .ok (none, w') ∧
      w'.trace = w.trace) ∧
    (∀ table projection attrNames, ∃ w',
      readItemsAll uuid oGet table [] projection attrNames w = .ok (none, w') ∧
      w'.trace = w.trace) ∧
    (∀ bucket, ∃ w', deleteObjectsAll uuid oSend bucket [] w = .ok (none, w') ∧
      w'.trace = w.trace) ∧
    (∀ bucket, ∃ w', getObjectHeadsAll uuid oHead bucket [] w = .ok (none, w') ∧
      w'.trace = w.trace) ∧
    (∀ bucket, ∃ w', uploadFilesAll uuid oSend resolve mimeLookup bucket [] none w =
      .ok (none, w') ∧ w'.trace = w.trace) ∧
    (∀ bucket files ps, bucket ≠ "" → files ≠ [] → (ps = [] ∨ files.length ≠ ps.length) →
      ∃ w', uploadFilesAll uuid oSend resolve mimeLookup bucket files (some ps) w =
        .ok (none, w') ∧ w'.trace = w.trace) := by
  obtain ⟨w1, hens, htr, hcl, -, -⟩ := dbEnsure_ok uuid w hdb
  obtain ⟨w2, hens2, htr2, hcl2, -, -⟩ := s3Ensure_ok uuid w hs3
  have hc1 : ¬ w1.dbc.client = none := by simpa [Option.isSome_iff_ne_none] using hcl
  have hc2 : ¬ w2.s3c.client = none := by simpa [Option.isSome_iff_ne_none] using hcl2
  refine ⟨fun table => ⟨w1, by simp [writeItemsAll, hens, hc1], htr⟩,
    fun items => ⟨w1, by simp [writeItemsAll, hens, hc1], htr⟩,
    fun table => ⟨w1, by simp [deleteItemsAll, hens, hc1], htr⟩,
    fun table projection attrNames => ⟨w1, by simp [readItemsAll, hens, hc1], htr⟩,
    fun bucket => ⟨w2, by simp [deleteObjectsAll, hens2, hc2], htr2⟩,
    fun bucket => ⟨w2, by simp [getObjectHeadsAll, hens2, hc2], htr2⟩,
    fun bucket => ⟨w2, by simp [uploadFilesAll, hens2, hc2], htr2⟩,
    fun bucket files ps hbk hf hmm => ⟨w2, ?_, htr2⟩⟩
  rcases hmm with hmm | hmm <;> simp [uploadFilesAll, hens2, hc2, hbk, hf, hmm]

/-- Witness for the amended C7 at a concrete input. -/
theorem claim_C7_invalid_input_amended_witness :
    ((wInit.dbc.client.isSome ∨ wInit.region ≠ "") ∧
     (wInit.s3c.client.isSome ∨ wInit.region ≠ "")) ∧
    ((∀ table, ∃ w', writeItemsAll uuidS osOK table [] wInit = .ok (none, w') ∧
      w'.trace = wInit.trace) ∧
    (∀ items, ∃ w', writeItemsAll uuidS osOK "" items wInit = .ok (none, w') ∧
      w'.trace = wInit.trace) ∧
    (∀ table, ∃ w', deleteItemsAll uuidS osOK table [] wInit = .ok (none, w') ∧
      w'.trace = wInit.trace) ∧
    (∀ table projection attrNames, ∃ w',
      readItemsAll uuidS ogS table [] projection attrNames wInit = .ok (none, w') ∧
      w'.trace = wInit.trace) ∧
    (∀ bucket, ∃ w', deleteObjectsAll uuidS osOK bucket [] wInit = .ok (none, w') ∧
      w'.trace = wInit.trace) ∧
    (∀ bucket, ∃ w', getObjectHeadsAll uuidS ohOK bucket [] wInit = .ok (none, w') ∧
      w'.trace = wInit.trace) ∧
    (∀ bucket, ∃ w', uploadFilesAll uuidS osOK resolveS mimeS bucket [] none wInit =
      .ok (none, w') ∧ w'.trace = wInit.trace) ∧
    (∀ bucket files ps, bucket ≠ "" → files ≠ [] → (ps = [] ∨ files.length ≠ ps.length) →
      ∃ w', uploadFilesAll uuidS osOK resolveS mimeS bucket files (some ps) wInit =
        .ok (none, w') ∧ w'.trace = wInit.trace)) :=
  ⟨⟨Or.inl (by decide), Or.inl (by decide)⟩,
   claim_C7_invalid_input_amended uuidS osOK ogS ohOK resolveS mimeS wInit
     (Or.inl (by decide)) (Or.inl (by decide))⟩

end Dapi
